import Mathlib

/-!
Verification development for the UART transceiver emulator of wbuart32
(bench/cpp/uartsim.cpp, class UARTSIM).  The per-tick entry point
`UARTSIM::rawtick` is shallowly embedded below, split as in the source into
the connection-accept probe, the change-counter update, the RX decoder block
and the TX encoder block.  Machine integers of the C code are modelled as
`Int` (the signed counters and file descriptors) and `Nat` (the unsigned
shift registers, kept below 2^32 by construction exactly as the C `unsigned`
fields are).  Transport I/O (poll/read/recv/write/send/accept) is modelled by
an explicit per-tick environment record describing the outcomes the
operating system would return.
-/

namespace Wbuart

/-- Line configuration, the unpacked fields of the 32-bit setup word
(`m_baud_counts`, `m_nbits`, `m_nstop`, `m_nparity`, `m_fixdp`, `m_evenp`). -/
structure Cfg where
  baud : Nat
  nbits : Nat
  nstop : Nat
  nparity : Nat
  fixdp : Nat
  evenp : Nat
deriving DecidableEq

/-- Configurations reachable from a setup word:
`m_nbits = 8-((w>>28)&3)` gives 5..8, `m_nstop = ((w>>27)&1)+1` gives 1..2,
and the three parity flags are single bits. -/
def ValidCfg (c : Cfg) : Prop :=
  5 ≤ c.nbits ∧ c.nbits ≤ 8 ∧ 1 ≤ c.nstop ∧ c.nstop ≤ 2 ∧
    c.nparity ≤ 1 ∧ c.fixdp ≤ 1 ∧ c.evenp ≤ 1

instance : DecidablePred ValidCfg := fun c => by
  unfold ValidCfg; infer_instance

/-- The mutable state of one `UARTSIM` instance (uartsim.h).  Field names
follow the C++ members.  `m_rx_state`/`m_tx_state` use the source encoding
RXIDLE = TXIDLE = 0, RXDATA = TXDATA = 1. -/
structure UARTSIM where
  m_skt : Int
  m_conrd : Int
  m_conwr : Int
  m_baud_counts : Nat
  m_nbits : Nat
  m_nstop : Nat
  m_nparity : Nat
  m_fixdp : Nat
  m_evenp : Nat
  m_rx_baudcounter : Int
  m_rx_state : Nat
  m_rx_busy : Nat
  m_rx_changectr : Nat
  m_last_tx : Nat
  m_tx_baudcounter : Int
  m_tx_state : Nat
  m_tx_busy : Nat
  m_rx_data : Nat
  m_tx_data : Nat
deriving DecidableEq

/-- Outcomes of the operating-system calls one `rawtick` may make:
whether `poll` on the listening socket reports a pending connection (and the
descriptor `accept` would return), whether `poll` on `m_conrd` reports
readable, what the one-byte `read`/`recv` returns (`rdData` is the return
count, `rdByte` the byte when the count is 1), and whether the one-byte
`write`/`send` succeeds. -/
structure Env where
  acceptReady : Bool
  acceptFd : Int
  pollIn : Bool
  rdData : Int
  rdByte : Nat
  wrOk : Bool
deriving DecidableEq

/-- UARTSIM::check_for_new_connections: when fully disconnected and
listening, accept a pending peer; the accepted descriptor serves as both
read and write side. -/
def check_for_new_connections (env : Env) (s : UARTSIM) : UARTSIM :=
  if s.m_conrd < 0 ∧ s.m_conwr < 0 ∧ 0 ≤ s.m_skt ∧ env.acceptReady then
    { s with m_conrd := env.acceptFd, m_conwr := env.acceptFd }
  else s

/-- Lines 161-164 of uartsim.cpp: reset the change counter on a 1 to 0
transition of the input line, otherwise increment it; remember the input. -/
def tickChange (i_tx : Nat) (s : UARTSIM) : UARTSIM :=
  if i_tx = 0 ∧ s.m_last_tx ≠ 0 then
    { s with m_rx_changectr := 0, m_last_tx := i_tx }
  else
    { s with m_rx_changectr := s.m_rx_changectr + 1, m_last_tx := i_tx }

/-- Total frame length `m_nbits + m_nparity + m_nstop` as used by the RX
completion test. -/
def rxFrameBits (s : UARTSIM) : Nat := s.m_nbits + s.m_nparity + s.m_nstop

/-- The RX decoder block of `rawtick` (lines 166-206).  Returns the new state
and, when the completed byte was passed to `write`/`send`, that byte
(`some b` means the write was attempted; `env.wrOk` decides its success). -/
def rxStep (env : Env) (i_tx : Nat) (s : UARTSIM) : UARTSIM × Option Nat :=
  if s.m_rx_state = 0 then
    (if i_tx = 0 then
      { s with
        m_rx_state := 1,
        m_rx_baudcounter := ((s.m_baud_counts : Int)
          + (s.m_baud_counts / 2 : Nat) - 1 - (s.m_rx_changectr : Int)),
        m_rx_busy := 0, m_rx_data := 0 }
     else s, none)
  else if s.m_rx_baudcounter ≤ 0 then
    if 2 ^ (rxFrameBits s - 1) ≤ s.m_rx_busy then
      let s1 := { s with
        m_rx_state := 0,
        m_rx_baudcounter := ((s.m_baud_counts : Int) - 1) }
      if 0 ≤ s.m_conwr then
        let b := (s.m_rx_data >>> (32 - s.m_nbits - s.m_nstop - s.m_nparity))
                   &&& 0xff
        if env.wrOk then (s1, some b)
        else ({ s1 with m_conrd := -1, m_conwr := -1 }, some b)
      else (s1, none)
    else
      ({ s with
          m_rx_busy := (s.m_rx_busy <<< 1) ||| 1,
          m_rx_data := ((i_tx &&& 1) <<< 31) ||| (s.m_rx_data >>> 1),
          m_rx_baudcounter := (s.m_baud_counts : Int) - 1 }, none)
  else
    ({ s with m_rx_baudcounter := s.m_rx_baudcounter - 1 }, none)

/-- The frame word the TX encoder loads on accepting byte `b`
(lines 223-242): `(-1 << (nbits+nparity+1)) | ((b<<1) & 0x1fe)` as a 32-bit
unsigned value, then, when parity is enabled, the parity bit ORed in at
position `nbits+nparity`.  The computed parity folds `(word >> 1) & 0xff`. -/
def txLoadData (nbits nparity fixdp evenp b : Nat) : Nat :=
  let d0 := (2 ^ 32 - 2 ^ (nbits + nparity + 1)) ||| ((b <<< 1) &&& 0x1fe)
  if nparity ≠ 0 then
    let p :=
      if fixdp ≠ 0 then evenp
      else
        let q0 := (d0 >>> 1) &&& 0xff
        let q1 := q0 ^^^ (q0 >>> 4)
        let q2 := q1 ^^^ (q1 >>> 2)
        let q3 := q2 ^^^ (q2 >>> 1)
        (q3 &&& 1) ^^^ evenp
    d0 ||| (p <<< (nbits + nparity))
  else d0

/-- The TX encoder block of `rawtick` (lines 208-274).  Returns the new state
and the output bit `o_rx` of this tick. -/
def txStep (network : Bool) (env : Env) (s : UARTSIM) : UARTSIM × Nat :=
  if s.m_tx_state = 0 ∧ (network = true ∨ 0 ≤ s.m_conrd) then
    if 0 ≤ s.m_conrd ∧ env.pollIn then
      if env.rdData = 1 then
        ({ s with
            m_tx_data := txLoadData s.m_nbits s.m_nparity s.m_fixdp s.m_evenp
              env.rdByte,
            m_tx_busy := 2 ^ (s.m_nbits + s.m_nparity + s.m_nstop + 1) - 1,
            m_tx_state := 1,
            m_tx_baudcounter := (s.m_baud_counts : Int) - 1 }, 0)
      else if network = true ∧ env.rdData = 0 then
        ({ s with m_conrd := -1, m_conwr := -1 }, 1)
      else if env.rdData < 0 then
        if network then ({ s with m_conrd := -1, m_conwr := -1 }, 1)
        else ({ s with m_conrd := -1 }, 1)
      else (s, 1)
    else (s, 1)
  else if s.m_tx_baudcounter ≤ 0 then
    let d := s.m_tx_data >>> 1
    let bsy := s.m_tx_busy >>> 1
    if bsy = 0 then
      ({ s with m_tx_data := d, m_tx_busy := bsy, m_tx_state := 0 }, d &&& 1)
    else
      ({ s with
          m_tx_data := d, m_tx_busy := bsy,
          m_tx_baudcounter := ((s.m_baud_counts : Int) - 1) }, d &&& 1)
  else
    ({ s with m_tx_baudcounter := s.m_tx_baudcounter - 1 },
      s.m_tx_data &&& 1)

/-- UARTSIM::rawtick: accept probe (network mode only), change counter, RX
block, TX block, in source order.  Result: new state, output bit, and the
byte passed to the sink write this tick, if any. -/
def rawtick (network : Bool) (env : Env) (i_tx : Nat) (s : UARTSIM) :
    UARTSIM × Nat × Option Nat :=
  let s0 := if network then check_for_new_connections env s else s
  let s1 := tickChange i_tx s0
  let rx := rxStep env i_tx s1
  let tx := txStep network env rx.1
  (tx.1, tx.2, rx.2)

/-- UARTSIM::kill (lines 106-120), faithful to the source including the slip
at line 110-111 that assigns `m_conwr = -1` where the guard tested
`m_conrd == STDIN_FILENO`.  Returns the list of descriptors passed to
`close`, then the final state. -/
def kill (s : UARTSIM) : List Int × UARTSIM :=
  let s1 := if s.m_conrd = 0 then { s with m_conwr := -1 } else s
  let s2 := if s1.m_conwr = 1 then { s1 with m_conwr := -1 } else s1
  let c1 : List Int := if 0 ≤ s2.m_conrd then [s2.m_conrd] else []
  let c2 : List Int :=
    if 0 ≤ s2.m_conwr ∧ s2.m_conwr ≠ s2.m_conrd then [s2.m_conwr] else []
  let c3 : List Int := if 0 ≤ s2.m_skt then [s2.m_skt] else []
  (c1 ++ c2 ++ c3, { s2 with m_conrd := -1, m_conwr := -1, m_skt := -1 })

/-- The state of a descriptor-pair-mode instance right after
`UARTSIM(0)`: `m_conrd = STDIN_FILENO = 0`, `m_conwr = STDOUT_FILENO = 1`,
no listener, both state machines idle, counters zero, with configuration `c`
applied.  The members the constructor leaves uninitialised
(`m_rx_busy`, `m_rx_changectr`, `m_last_tx`, `m_rx_data`, `m_tx_busy`,
`m_tx_data`) are taken as the idle-line values 0 and `m_last_tx = 1`. -/
def fdState (c : Cfg) : UARTSIM :=
  { m_skt := -1, m_conrd := 0, m_conwr := 1,
    m_baud_counts := c.baud, m_nbits := c.nbits, m_nstop := c.nstop,
    m_nparity := c.nparity, m_fixdp := c.fixdp, m_evenp := c.evenp,
    m_rx_baudcounter := 0, m_rx_state := 0, m_rx_busy := 0,
    m_rx_changectr := 0, m_last_tx := 1,
    m_tx_baudcounter := 0, m_tx_state := 0, m_tx_busy := 0,
    m_rx_data := 0, m_tx_data := 0 }

/-- Quiescent environment: no pending connection, nothing readable, writes
succeed. -/
def envQ : Env :=
  { acceptReady := false, acceptFd := -1, pollIn := false, rdData := 0,
    rdByte := 0, wrOk := true }

/-- Environment with one byte `b` readable. -/
def envB (b : Nat) : Env :=
  { acceptReady := false, acceptFd := -1, pollIn := true, rdData := 1,
    rdByte := b, wrOk := true }

/-- Environment reporting a hard read error. -/
def envRdErr : Env :=
  { acceptReady := false, acceptFd := -1, pollIn := true, rdData := -1,
    rdByte := 0, wrOk := true }

/-- Environment reporting an orderly peer close (one-byte read returns 0). -/
def envRdEof : Env :=
  { acceptReady := false, acceptFd := -1, pollIn := true, rdData := 0,
    rdByte := 0, wrOk := true }

/-- Environment whose one-byte write fails. -/
def envWrFail : Env :=
  { acceptReady := false, acceptFd := -1, pollIn := false, rdData := 0,
    rdByte := 0, wrOk := false }

/-- Environment stream of the encoder instance: the source offers byte `b`
on tick 0 and is empty (would-block) afterwards. -/
def encEnv (b : Nat) (t : Nat) : Env := if t = 0 then envB b else envQ

/-- State of the encoder instance at the start of tick `t`: a fresh
descriptor-pair instance ticked `t` times with idle input and the source
offering byte `b` on tick 0 only. -/
def encS (c : Cfg) (b : Nat) : Nat → UARTSIM
  | 0 => fdState c
  | t + 1 => (rawtick false (encEnv b t) 1 (encS c b t)).1

/-- Serial output bit of the encoder instance on tick `t`. -/
def encOut (c : Cfg) (b : Nat) (t : Nat) : Nat :=
  (rawtick false (encEnv b t) 1 (encS c b t)).2.1

/-- State of a decoder instance at the start of tick `t`: a fresh
descriptor-pair instance whose serial input on tick `u` is `f u`, with an
empty source and a working sink. -/
def decS (c : Cfg) (f : Nat → Nat) : Nat → UARTSIM
  | 0 => fdState c
  | t + 1 => (rawtick false envQ (f t) (decS c f t)).1

/-- Byte the decoder instance hands to its sink on tick `t`, if any. -/
def decWr (c : Cfg) (f : Nat → Nat) (t : Nat) : Option Nat :=
  (rawtick false envQ (f t) (decS c f t)).2.2

/-- Round trip: the decoder, fed bit-per-tick with the encoder's output,
and what it writes to its sink on tick `t`. -/
def roundTripWr (c : Cfg) (b t : Nat) : Option Nat :=
  decWr c (encOut c b) t

/-- Frame length of configuration `c`. -/
def frameBits (c : Cfg) : Nat := c.nbits + c.nparity + c.nstop

/-- Effective ticks per bit: divisor 0 advances one bit per tick, exactly as
divisor 1 does, because all the counters in the source compare with `<= 0`. -/
def bp (c : Cfg) : Nat := max c.baud 1

/-- The frame word loaded for byte `b` under configuration `c`. -/
def txD (c : Cfg) (b : Nat) : Nat :=
  txLoadData c.nbits c.nparity c.fixdp c.evenp b

/-- Tick on which the RX decoder takes its `i`-th sample (counted from the
tick of the start edge): mid-bit of the `(i+1)`-st frame bit. -/
def rxSampleTick (c : Cfg) : Nat → Nat
  | 0 => bp c + bp c / 2
  | i + 1 => rxSampleTick c i + bp c

/-- Tick on which the RX decoder completes a frame begun on tick 0 and
attempts delivery. -/
def rxDone (c : Cfg) : Nat := rxSampleTick c (frameBits c)

/-- Little-endian word of the first `j` sampled bits of input stream `f`. -/
def wAcc (c : Cfg) (f : Nat → Nat) : Nat → Nat
  | 0 => 0
  | j + 1 => wAcc c f j + (f (rxSampleTick c j) % 2) * 2 ^ j

/-- The byte a full round trip delivers: the low `min (frameBits c) 8` bits
of the transmitted frame after the start bit. -/
def rtByte (c : Cfg) (b : Nat) : Nat :=
  (txD c b / 2) % 2 ^ min (frameBits c) 8

/-- XOR-fold (even parity) of the low eight bits of `x`. -/
def parity8 (x : Nat) : Nat :=
  ((x &&& 1) + (x >>> 1 &&& 1) + (x >>> 2 &&& 1) + (x >>> 3 &&& 1)
    + (x >>> 4 &&& 1) + (x >>> 5 &&& 1) + (x >>> 6 &&& 1)
    + (x >>> 7 &&& 1)) % 2

/-- The high bits of the fold source that the loaded frame word forces to 1
when fewer than 8 data bits are configured. -/
def hiMask (nbits : Nat) : Nat := (0xff >>> (nbits + 1)) <<< (nbits + 1)

/-- The value of the parity slot of the frame the encoder actually loads:
the configured parity value ORed with bit `nbits` of the source byte (the
byte is placed in the word before the parity bit is ORed in at position
`nbits + nparity`, so for fewer than 8 data bits the first untransmitted
byte bit lands on the parity position).  The computed fold likewise runs
over the full byte ORed with the constant high bits `hiMask nbits`. -/
def specParitySlot (nbits fixdp evenp b : Nat) : Nat :=
  (if fixdp ≠ 0 then evenp else parity8 (b ||| hiMask nbits) ^^^ evenp)
    ||| ((b >>> nbits) &&& 1)

/-- State of the encoder instance at the start of tick `σ * bp c + r + 1`
(so after the start bit and `σ` shifts, `r` ticks into the current bit
period), for `σ ≤ frameBits c` and `r < bp c`. -/
def encF (c : Cfg) (b σ r : Nat) : UARTSIM :=
  { fdState c with
    m_rx_changectr := σ * bp c + r + 1,
    m_tx_state := 1,
    m_tx_data := txD c b >>> σ,
    m_tx_busy := (2 ^ (frameBits c + 1) - 1) >>> σ,
    m_tx_baudcounter := ((c.baud : Int) - 1 - (r : Int)) }

/-- State of the encoder instance at the start of any tick
`t > (frameBits c + 1) * bp c`, after the frame has drained. -/
def encPost (c : Cfg) (b t : Nat) : UARTSIM :=
  { fdState c with
    m_rx_changectr := t,
    m_tx_data := txD c b >>> (frameBits c + 1),
    m_tx_busy := 0,
    m_tx_baudcounter := ((c.baud : Int) - 1 - (bp c - 1 : Nat)) }

/-- First tick of the `j`-th sampling phase of the RX decoder. -/
def rxPhaseLo (c : Cfg) : Nat → Nat
  | 0 => 1
  | j + 1 => rxSampleTick c j + 1

/-- State of a decoder instance at the start of tick `t` of phase `j`
(after `j` samples of stream `f`): the `j` captured frame bits sit at the
top of the 32-bit shift register, the baud counter counts down to the next
sample tick `rxSampleTick c j`, the connection is intact, the TX side idle.
The change counter and remembered input, which the receiving decoder never
reads, are the parameters `ctr` and `lst`. -/
def decF (c : Cfg) (f : Nat → Nat) (j t ctr lst : Nat) : UARTSIM :=
  { fdState c with
    m_rx_state := 1,
    m_rx_busy := 2 ^ j - 1,
    m_rx_data := wAcc c f j <<< (32 - j),
    m_rx_baudcounter := ((rxSampleTick c j : Int) - t
      - (if c.baud = 0 then 1 else 0)),
    m_rx_changectr := ctr,
    m_last_tx := lst }

/-- Invariant of the decoder instance at the start of tick `t`: it is in
phase `j`, within the phase window, in a `decF` state. -/
def DecInv (c : Cfg) (f : Nat → Nat) (j t : Nat) (s : UARTSIM) : Prop :=
  rxPhaseLo c j ≤ t ∧ t ≤ rxSampleTick c j ∧
  ∃ ctr lst, s = decF c f j t ctr lst

/-- The decoder instance on tick `t` is in some phase `j` of the frame. -/
def Reach (c : Cfg) (f : Nat → Nat) (t : Nat) : Prop :=
  ∃ j, j ≤ frameBits c ∧ DecInv c f j t (decS c f t)

/-- Quiescent decoder shape after the frame: both machines idle, read side
open. -/
def DecIdle (s : UARTSIM) : Prop :=
  s.m_rx_state = 0 ∧ s.m_tx_state = 0 ∧ s.m_conrd = 0

/-- Expected output bits of concrete scenario A, one entry per bit period:
start, the bits of 0x41 LSB first, stop. -/
def c8pat : List Nat := [0, 1, 0, 0, 0, 0, 0, 1, 0, 1]

/-- Scenario A configuration: divisor 25, 8 data bits, no parity, 1 stop. -/
def cfgA : Cfg := ⟨25, 8, 1, 0, 0, 0⟩

/-- 8N1 with divisor 1. -/
def cfgB1 : Cfg := ⟨1, 8, 1, 0, 0, 0⟩

/-- 5 data bits, no parity, 1 stop, divisor 1. -/
def cfgN5 : Cfg := ⟨1, 5, 1, 0, 0, 0⟩

/-- A Sending-state encoder whose bit period expires this tick with shift
register 2: the pre-shift LSB is 0 but the tick outputs 1. -/
def s4ctr : UARTSIM :=
  { fdState cfgA with
    m_tx_state := 1, m_tx_baudcounter := 0, m_tx_data := 2, m_tx_busy := 3 }

/-- A decoder one tick from completing a 5N1 frame whose captured stop bit
is 1 (shift register holds the 6 samples 0,0,0,0,0,1 at the top). -/
def s2ctr : UARTSIM :=
  { fdState cfgN5 with
    m_rx_state := 1, m_rx_baudcounter := 0, m_rx_busy := 63,
    m_rx_data := 32 <<< 26 }

/-- A network-mode instance with an accepted peer on descriptor 4. -/
def netSt : UARTSIM :=
  { fdState cfgA with m_skt := 3, m_conrd := 4, m_conwr := 4 }

/-- Environment stream of the descriptor-pair error scenario: one byte on
tick 0, a hard read error on tick 11 (the first idle probe after the
frame), nothing afterwards. -/
def c6Env (t : Nat) : Env :=
  if t = 0 then envB 65 else if t = 11 then envRdErr else envQ

/-- Run of the descriptor-pair error scenario (divisor 1, 8N1). -/
def c6S : Nat → UARTSIM
  | 0 => fdState cfgB1
  | t + 1 => (rawtick false (c6Env t) 1 (c6S t)).1

/-- Output bit of the descriptor-pair error scenario on tick `t`. -/
def c6Out (t : Nat) : Nat := (rawtick false (c6Env t) 1 (c6S t)).2.1

/-! Branch lemmas for the three sub-steps of `rawtick`. -/

theorem tickChange_pos (i : Nat) (s : UARTSIM) (hi : i ≠ 0) :
    tickChange i s =
      { s with m_rx_changectr := s.m_rx_changectr + 1, m_last_tx := i } := by
  unfold tickChange
  rw [if_neg (fun h => hi h.1)]

theorem tickChange_edge (s : UARTSIM) (h : s.m_last_tx ≠ 0) :
    tickChange 0 s = { s with m_rx_changectr := 0, m_last_tx := 0 } := by
  unfold tickChange
  rw [if_pos ⟨rfl, h⟩]

theorem rxStep_idle_mark (env : Env) (i : Nat) (s : UARTSIM)
    (h : s.m_rx_state = 0) (hi : i ≠ 0) : rxStep env i s = (s, none) := by
  unfold rxStep
  rw [if_pos h, if_neg hi]

theorem rxStep_enter (env : Env) (s : UARTSIM) (h : s.m_rx_state = 0) :
    rxStep env 0 s =
      ({ s with
          m_rx_state := 1,
          m_rx_baudcounter := ((s.m_baud_counts : Int)
            + (s.m_baud_counts / 2 : Nat) - 1 - (s.m_rx_changectr : Int)),
          m_rx_busy := 0, m_rx_data := 0 }, none) := by
  unfold rxStep
  rw [if_pos h, if_pos rfl]

theorem rxStep_dec (env : Env) (i : Nat) (s : UARTSIM)
    (h : s.m_rx_state ≠ 0) (hc : 0 < s.m_rx_baudcounter) :
    rxStep env i s =
      ({ s with m_rx_baudcounter := s.m_rx_baudcounter - 1 }, none) := by
  unfold rxStep
  rw [if_neg h, if_neg (by omega)]

theorem rxStep_sample (env : Env) (i : Nat) (s : UARTSIM)
    (h : s.m_rx_state ≠ 0) (hc : s.m_rx_baudcounter ≤ 0)
    (hb : s.m_rx_busy < 2 ^ (rxFrameBits s - 1)) :
    rxStep env i s =
      ({ s with
          m_rx_busy := (s.m_rx_busy <<< 1) ||| 1,
          m_rx_data := ((i &&& 1) <<< 31) ||| (s.m_rx_data >>> 1),
          m_rx_baudcounter := ((s.m_baud_counts : Int) - 1) }, none) := by
  unfold rxStep
  rw [if_neg h, if_pos hc, if_neg (by omega)]

theorem rxStep_deliver (env : Env) (i : Nat) (s : UARTSIM)
    (h : s.m_rx_state ≠ 0) (hc : s.m_rx_baudcounter ≤ 0)
    (hb : 2 ^ (rxFrameBits s - 1) ≤ s.m_rx_busy) (hw : 0 ≤ s.m_conwr)
    (hok : env.wrOk = true) :
    rxStep env i s =
      ({ s with
          m_rx_state := 0,
          m_rx_baudcounter := ((s.m_baud_counts : Int) - 1) },
        some ((s.m_rx_data >>> (32 - s.m_nbits - s.m_nstop - s.m_nparity))
          &&& 0xff)) := by
  unfold rxStep
  rw [if_neg h, if_pos hc, if_pos hb, if_pos hw, if_pos hok]

theorem rxStep_deliver_fail (env : Env) (i : Nat) (s : UARTSIM)
    (h : s.m_rx_state ≠ 0) (hc : s.m_rx_baudcounter ≤ 0)
    (hb : 2 ^ (rxFrameBits s - 1) ≤ s.m_rx_busy) (hw : 0 ≤ s.m_conwr)
    (hok : env.wrOk = false) :
    rxStep env i s =
      ({ s with
          m_rx_state := 0,
          m_rx_baudcounter := ((s.m_baud_counts : Int) - 1),
          m_conrd := -1, m_conwr := -1 },
        some ((s.m_rx_data >>> (32 - s.m_nbits - s.m_nstop - s.m_nparity))
          &&& 0xff)) := by
  unfold rxStep
  rw [if_neg h, if_pos hc, if_pos hb, if_pos hw, if_neg (by simp [hok])]

theorem rxStep_deliver_noconn (env : Env) (i : Nat) (s : UARTSIM)
    (h : s.m_rx_state ≠ 0) (hc : s.m_rx_baudcounter ≤ 0)
    (hb : 2 ^ (rxFrameBits s - 1) ≤ s.m_rx_busy) (hw : s.m_conwr < 0) :
    rxStep env i s =
      ({ s with
          m_rx_state := 0,
          m_rx_baudcounter := ((s.m_baud_counts : Int) - 1) }, none) := by
  unfold rxStep
  rw [if_neg h, if_pos hc, if_pos hb, if_neg (by omega)]

theorem txStep_quiet (net : Bool) (env : Env) (s : UARTSIM)
    (h0 : s.m_tx_state = 0) (h1 : net = true ∨ 0 ≤ s.m_conrd)
    (h2 : ¬(0 ≤ s.m_conrd ∧ env.pollIn = true)) :
    txStep net env s = (s, 1) := by
  unfold txStep
  rw [if_pos ⟨h0, h1⟩, if_neg h2]

theorem txStep_load (net : Bool) (env : Env) (s : UARTSIM)
    (h0 : s.m_tx_state = 0) (h1 : net = true ∨ 0 ≤ s.m_conrd)
    (h2 : 0 ≤ s.m_conrd) (h3 : env.pollIn = true) (h4 : env.rdData = 1) :
    txStep net env s =
      ({ s with
          m_tx_data := txLoadData s.m_nbits s.m_nparity s.m_fixdp s.m_evenp
            env.rdByte,
          m_tx_busy := 2 ^ (s.m_nbits + s.m_nparity + s.m_nstop + 1) - 1,
          m_tx_state := 1,
          m_tx_baudcounter := ((s.m_baud_counts : Int) - 1) }, 0) := by
  unfold txStep
  rw [if_pos ⟨h0, h1⟩, if_pos ⟨h2, h3⟩, if_pos h4]

theorem txStep_rdeof_fd (env : Env) (s : UARTSIM)
    (h0 : s.m_tx_state = 0) (h2 : 0 ≤ s.m_conrd) (h3 : env.pollIn = true)
    (h4 : env.rdData = 0) : txStep false env s = (s, 1) := by
  unfold txStep
  rw [if_pos ⟨h0, Or.inr h2⟩, if_pos ⟨h2, h3⟩, if_neg (by simp [h4]),
    if_neg (by simp), if_neg (by omega)]

theorem txStep_rdeof_net (env : Env) (s : UARTSIM)
    (h0 : s.m_tx_state = 0) (h2 : 0 ≤ s.m_conrd) (h3 : env.pollIn = true)
    (h4 : env.rdData = 0) :
    txStep true env s = ({ s with m_conrd := -1, m_conwr := -1 }, 1) := by
  unfold txStep
  rw [if_pos ⟨h0, Or.inl rfl⟩, if_pos ⟨h2, h3⟩, if_neg (by simp [h4]),
    if_pos ⟨rfl, h4⟩]

theorem txStep_rderr_fd (env : Env) (s : UARTSIM)
    (h0 : s.m_tx_state = 0) (h2 : 0 ≤ s.m_conrd) (h3 : env.pollIn = true)
    (h4 : env.rdData < 0) :
    txStep false env s = ({ s with m_conrd := -1 }, 1) := by
  unfold txStep
  rw [if_pos ⟨h0, Or.inr h2⟩, if_pos ⟨h2, h3⟩, if_neg (by omega),
    if_neg (by simp), if_pos h4, if_neg (by simp)]

theorem txStep_rderr_net (env : Env) (s : UARTSIM)
    (h0 : s.m_tx_state = 0) (h2 : 0 ≤ s.m_conrd) (h3 : env.pollIn = true)
    (h4 : env.rdData < 0) :
    txStep true env s = ({ s with m_conrd := -1, m_conwr := -1 }, 1) := by
  unfold txStep
  rw [if_pos ⟨h0, Or.inl rfl⟩, if_pos ⟨h2, h3⟩, if_neg (by omega),
    if_neg (by omega), if_pos h4, if_pos rfl]

theorem txStep_dec (net : Bool) (env : Env) (s : UARTSIM)
    (h : ¬(s.m_tx_state = 0 ∧ (net = true ∨ 0 ≤ s.m_conrd)))
    (hc : 0 < s.m_tx_baudcounter) :
    txStep net env s =
      ({ s with m_tx_baudcounter := s.m_tx_baudcounter - 1 },
        s.m_tx_data &&& 1) := by
  unfold txStep
  rw [if_neg h, if_neg (by omega)]

theorem txStep_shift_cont (net : Bool) (env : Env) (s : UARTSIM)
    (h : ¬(s.m_tx_state = 0 ∧ (net = true ∨ 0 ≤ s.m_conrd)))
    (hc : s.m_tx_baudcounter ≤ 0) (hb : s.m_tx_busy >>> 1 ≠ 0) :
    txStep net env s =
      ({ s with
          m_tx_data := s.m_tx_data >>> 1, m_tx_busy := s.m_tx_busy >>> 1,
          m_tx_baudcounter := ((s.m_baud_counts : Int) - 1) },
        (s.m_tx_data >>> 1) &&& 1) := by
  unfold txStep
  rw [if_neg h, if_pos hc, if_neg hb]

theorem txStep_shift_done (net : Bool) (env : Env) (s : UARTSIM)
    (h : ¬(s.m_tx_state = 0 ∧ (net = true ∨ 0 ≤ s.m_conrd)))
    (hc : s.m_tx_baudcounter ≤ 0) (hb : s.m_tx_busy >>> 1 = 0) :
    txStep net env s =
      ({ s with
          m_tx_data := s.m_tx_data >>> 1, m_tx_busy := s.m_tx_busy >>> 1,
          m_tx_state := 0 },
        (s.m_tx_data >>> 1) &&& 1) := by
  unfold txStep
  rw [if_neg h, if_pos hc, if_pos hb]

theorem chk_noop (env : Env) (s : UARTSIM)
    (h : ¬(s.m_conrd < 0 ∧ s.m_conwr < 0 ∧ 0 ≤ s.m_skt
      ∧ env.acceptReady = true)) :
    check_for_new_connections env s = s := by
  unfold check_for_new_connections
  rw [if_neg h]

theorem chk_accept (env : Env) (s : UARTSIM)
    (h1 : s.m_conrd < 0) (h2 : s.m_conwr < 0) (h3 : 0 ≤ s.m_skt)
    (h4 : env.acceptReady = true) :
    check_for_new_connections env s =
      { s with m_conrd := env.acceptFd, m_conwr := env.acceptFd } := by
  unfold check_for_new_connections
  rw [if_pos ⟨h1, h2, h3, h4⟩]

theorem rawtick_fd (env : Env) (i : Nat) (s : UARTSIM) :
    rawtick false env i s =
      ((txStep false env (rxStep env i (tickChange i s)).1).1,
       (txStep false env (rxStep env i (tickChange i s)).1).2,
       (rxStep env i (tickChange i s)).2) := rfl

theorem rxStep_preserves_tx (env : Env) (i : Nat) (s : UARTSIM) :
    (rxStep env i s).1.m_tx_state = s.m_tx_state ∧
    (rxStep env i s).1.m_tx_data = s.m_tx_data ∧
    (rxStep env i s).1.m_tx_busy = s.m_tx_busy ∧
    (rxStep env i s).1.m_tx_baudcounter = s.m_tx_baudcounter ∧
    (rxStep env i s).1.m_baud_counts = s.m_baud_counts := by
  unfold rxStep
  repeat' split
  all_goals simp

theorem rxStep_keeps_neg_fds (env : Env) (i : Nat) (s : UARTSIM)
    (h1 : s.m_conrd < 0) (h2 : s.m_conwr < 0) :
    (rxStep env i s).1.m_conrd < 0 ∧ (rxStep env i s).1.m_conwr < 0 := by
  unfold rxStep
  repeat' split
  all_goals simp_all

theorem tickChange_fields (i : Nat) (s : UARTSIM) :
    (tickChange i s).m_rx_state = s.m_rx_state ∧
    (tickChange i s).m_rx_busy = s.m_rx_busy ∧
    (tickChange i s).m_rx_data = s.m_rx_data ∧
    (tickChange i s).m_rx_baudcounter = s.m_rx_baudcounter ∧
    (tickChange i s).m_tx_state = s.m_tx_state ∧
    (tickChange i s).m_tx_data = s.m_tx_data ∧
    (tickChange i s).m_tx_busy = s.m_tx_busy ∧
    (tickChange i s).m_tx_baudcounter = s.m_tx_baudcounter ∧
    (tickChange i s).m_conrd = s.m_conrd ∧
    (tickChange i s).m_conwr = s.m_conwr ∧
    (tickChange i s).m_skt = s.m_skt ∧
    (tickChange i s).m_baud_counts = s.m_baud_counts ∧
    (tickChange i s).m_nbits = s.m_nbits ∧
    (tickChange i s).m_nstop = s.m_nstop ∧
    (tickChange i s).m_nparity = s.m_nparity ∧
    (tickChange i s).m_fixdp = s.m_fixdp ∧
    (tickChange i s).m_evenp = s.m_evenp := by
  unfold tickChange
  split
  all_goals simp

/-! Arithmetic helpers. -/

theorem or_add_of_lt (x : Nat) : ∀ k y : Nat, y < 2 ^ k →
    (x <<< k) ||| y = x <<< k + y := by
  intro k
  induction k with
  | zero =>
    intro y hy
    interval_cases y
    simp
  | succ k ih =>
    intro y hy
    have hx : x <<< (k + 1) = Nat.bit false (x <<< k) := by
      rw [Nat.shiftLeft_succ]; rfl
    have hy2 : Nat.bit (decide (y % 2 = 1)) (y >>> 1) = y :=
      Nat.bit_decide_mod_two_eq_one_shiftRight_one y
    rw [hx, ← hy2, Nat.lor_bit]
    have hlt : y >>> 1 < 2 ^ k := by
      have h2 : (2 : Nat) ^ (k + 1) = 2 * 2 ^ k := by ring
      rw [Nat.shiftRight_one]
      omega
    rw [Bool.false_or, ih (y >>> 1) hlt]
    simp only [Nat.bit_val, Bool.toNat_false]
    omega

theorem shiftLeft_shiftRight_self (w k : Nat) : (w <<< k) >>> k = w := by
  rw [Nat.shiftLeft_eq, Nat.shiftRight_eq_div_pow]
  exact Nat.mul_div_cancel w (Nat.pos_pow_of_pos k (by norm_num))

theorem shiftLeft_shiftRight_one (w k : Nat) :
    (w <<< (k + 1)) >>> 1 = w <<< k := by
  rw [Nat.shiftLeft_succ, Nat.shiftRight_one]
  omega

theorem pow_sub_one_shiftRight (m k : Nat) :
    (2 ^ m - 1) >>> k = 2 ^ (m - k) - 1 := by
  induction k with
  | zero => simp
  | succ k ih =>
    have hsplit : (2 ^ m - 1) >>> (k + 1) = ((2 ^ m - 1) >>> k) >>> 1 :=
      Nat.shiftRight_add _ k 1
    rw [hsplit, ih, Nat.shiftRight_one]
    rcases Nat.eq_zero_or_pos (m - k) with h | h
    · have h2 : m - (k + 1) = 0 := by omega
      rw [h, h2]
      norm_num
    · have h1 : m - k = (m - (k + 1)) + 1 := by omega
      have h2 : (2 : Nat) ^ ((m - (k + 1)) + 1) = 2 * 2 ^ (m - (k + 1)) := by
        ring
      rw [h1]
      omega

theorem busy_or_one (j : Nat) : ((2 ^ j - 1) <<< 1) ||| 1 = 2 ^ (j + 1) - 1 := by
  have h := or_add_of_lt (2 ^ j - 1) 1 1 (by norm_num)
  rw [h, Nat.shiftLeft_eq]
  have hj : (1 : Nat) ≤ 2 ^ j := Nat.one_le_two_pow
  have h2 : (2 : Nat) ^ (j + 1) = 2 ^ j * 2 := by ring
  omega

theorem rx_data_combine (bitv w j : Nat) (hw : w < 2 ^ j) (hj : j ≤ 31) :
    (bitv <<< 31) ||| ((w <<< (32 - j)) >>> 1) =
      (w + bitv * 2 ^ j) <<< (32 - (j + 1)) := by
  have h1 : (w <<< (32 - j)) >>> 1 = w <<< (31 - j) := by
    have h : 32 - j = (31 - j) + 1 := by omega
    rw [h, shiftLeft_shiftRight_one]
  have h2 : (2 : Nat) ^ 31 = 2 ^ j * 2 ^ (31 - j) := by
    rw [← pow_add]; congr 1; omega
  rw [h1, or_add_of_lt]
  · rw [Nat.shiftLeft_eq, Nat.shiftLeft_eq, Nat.shiftLeft_eq]
    have h32 : 32 - (j + 1) = 31 - j := by omega
    rw [h32, h2]
    ring
  · rw [Nat.shiftLeft_eq, h2]
    have hp : (0 : Nat) < 2 ^ (31 - j) := Nat.pos_pow_of_pos _ (by norm_num)
    exact Nat.mul_lt_mul_of_lt_of_le hw (le_refl _) hp

theorem sample_bits_mod (n j : Nat) :
    (n >>> 1) % 2 ^ j + ((n >>> (j + 1)) &&& 1) * 2 ^ j =
      (n >>> 1) % 2 ^ (j + 1) := by
  have h1 : n >>> (j + 1) = (n >>> 1) >>> j := by
    have h : j + 1 = 1 + j := by omega
    rw [h, Nat.shiftRight_add]
  rw [h1, Nat.and_one_is_mod, Nat.shiftRight_eq_div_pow (n >>> 1) j,
    Nat.mod_pow_succ]
  ring

theorem wAcc_lt (c : Cfg) (f : Nat → Nat) : ∀ j, wAcc c f j < 2 ^ j := by
  intro j
  induction j with
  | zero => simp [wAcc]
  | succ j ih =>
    have h1 : f (rxSampleTick c j) % 2 * 2 ^ j ≤ 1 * 2 ^ j :=
      Nat.mul_le_mul_right _ (by omega)
    have h2 : (2 : Nat) ^ (j + 1) = 2 ^ j + 2 ^ j := by ring
    simp only [wAcc]
    omega

theorem rawtick_net (env : Env) (i : Nat) (s : UARTSIM) :
    rawtick true env i s =
      ((txStep true env
          (rxStep env i (tickChange i (check_for_new_connections env s))).1).1,
       (txStep true env
          (rxStep env i (tickChange i (check_for_new_connections env s))).1).2,
       (rxStep env i (tickChange i (check_for_new_connections env s))).2) :=
  rfl

/-! Encoder run: explicit state formulas. -/

theorem bp_pos (c : Cfg) : 0 < bp c := by
  unfold bp; omega

theorem rxSampleTick_eq (c : Cfg) : ∀ i,
    rxSampleTick c i = (i + 1) * bp c + bp c / 2 := by
  intro i
  induction i with
  | zero => simp [rxSampleTick]
  | succ i ih =>
    show rxSampleTick c i + bp c = _
    rw [ih, Nat.succ_mul (i + 1) (bp c)]
    ring

theorem encS_one (c : Cfg) (b : Nat) :
    rawtick false (envB b) 1 (fdState c) = (encF c b 0 0, 0, none) := by
  rw [rawtick_fd, tickChange_pos _ _ (by norm_num)]
  rw [rxStep_idle_mark _ _ _ rfl (by norm_num)]
  dsimp only
  rw [txStep_load _ _ _ rfl (Or.inr (by simp [fdState])) (by simp [fdState])
    rfl rfl]
  simp only [encF, fdState, txD, frameBits, envB]
  norm_num

theorem encS_step_mid (c : Cfg) (b σ r : Nat) (hr : r + 1 < bp c) :
    rawtick false envQ 1 (encF c b σ r) =
      (encF c b σ (r + 1), (txD c b >>> σ) &&& 1, none) := by
  have hB : r + 1 < c.baud := by unfold bp at hr; omega
  rw [rawtick_fd, tickChange_pos _ _ (by norm_num)]
  rw [rxStep_idle_mark _ _ _ rfl (by norm_num)]
  rw [txStep_dec _ _ _ (by simp [encF, fdState]) (by
    simp only [encF, fdState]
    omega)]
  simp only [encF, fdState]
  norm_num
  omega

theorem encS_step_shift (c : Cfg) (b σ : Nat) (hσ : σ < frameBits c) :
    rawtick false envQ 1 (encF c b σ (bp c - 1)) =
      (encF c b (σ + 1) 0, (txD c b >>> (σ + 1)) &&& 1, none) := by
  have hbp : 0 < bp c := bp_pos c
  have hbusy : ((2 ^ (frameBits c + 1) - 1) >>> σ) >>> 1
      = 2 ^ (frameBits c - σ) - 1 := by
    rw [← Nat.shiftRight_add, pow_sub_one_shiftRight]
    have he : frameBits c + 1 - (σ + 1) = frameBits c - σ := by omega
    rw [he]
  have hbusyne : (2 : Nat) ^ (frameBits c - σ) - 1 ≠ 0 := by
    have h1 : (2 : Nat) ^ 1 ≤ 2 ^ (frameBits c - σ) :=
      Nat.pow_le_pow_right (by norm_num) (by omega)
    omega
  rw [rawtick_fd, tickChange_pos _ _ (by norm_num)]
  rw [rxStep_idle_mark _ _ _ rfl (by norm_num)]
  rw [txStep_shift_cont _ _ _ (by simp [encF, fdState]) (by
    simp only [encF, fdState]
    unfold bp
    omega) (by
    show ((2 ^ (frameBits c + 1) - 1) >>> σ) >>> 1 ≠ 0
    rw [hbusy]
    exact hbusyne)]
  simp only [encF, fdState]
  rw [← Nat.shiftRight_add (txD c b) σ 1,
    ← Nat.shiftRight_add ((2 : Nat) ^ (frameBits c + 1) - 1) σ 1]
  norm_num
  rw [Nat.succ_mul]
  omega

theorem encS_step_last (c : Cfg) (b : Nat) :
    rawtick false envQ 1 (encF c b (frameBits c) (bp c - 1)) =
      (encPost c b ((frameBits c + 1) * bp c + 1),
        (txD c b >>> (frameBits c + 1)) &&& 1, none) := by
  have hbp : 0 < bp c := bp_pos c
  have hbusy : ((2 ^ (frameBits c + 1) - 1) >>> frameBits c) >>> 1 = 0 := by
    rw [← Nat.shiftRight_add, pow_sub_one_shiftRight]
    norm_num
  rw [rawtick_fd, tickChange_pos _ _ (by norm_num)]
  rw [rxStep_idle_mark _ _ _ rfl (by norm_num)]
  rw [txStep_shift_done _ _ _ (by simp [encF, fdState]) (by
    simp only [encF, fdState]
    unfold bp
    omega) hbusy]
  simp only [encF, encPost, fdState, hbusy]
  rw [← Nat.shiftRight_add (txD c b) (frameBits c) 1]
  norm_num
  rw [Nat.succ_mul]
  omega

theorem encS_quiet (c : Cfg) (b t : Nat) :
    rawtick false envQ 1 (encPost c b t) = (encPost c b (t + 1), 1, none) := by
  rw [rawtick_fd, tickChange_pos _ _ (by norm_num)]
  rw [rxStep_idle_mark _ _ _ rfl (by norm_num)]
  rw [txStep_quiet _ _ _ (by simp [encPost, fdState])
    (Or.inr (by simp [encPost, fdState])) (by simp [envQ])]
  simp [encPost, fdState]

theorem encS_phase (c : Cfg) (b σ : Nat)
    (h0 : encS c b (σ * bp c + 1) = encF c b σ 0) :
    ∀ r, r < bp c → encS c b (σ * bp c + r + 1) = encF c b σ r := by
  intro r
  induction r with
  | zero => intro _; simpa using h0
  | succ r ih =>
    intro hr
    have h1 := ih (by omega)
    have h2 : σ * bp c + (r + 1) + 1 = (σ * bp c + r + 1) + 1 := by omega
    rw [h2]
    show (rawtick false (encEnv b (σ * bp c + r + 1)) 1
      (encS c b (σ * bp c + r + 1))).1 = _
    have henv : encEnv b (σ * bp c + r + 1) = envQ := by
      unfold encEnv; rw [if_neg (by omega)]
    rw [henv, h1, encS_step_mid c b σ r (by omega)]

theorem encS_formula (c : Cfg) (b : Nat) : ∀ σ, σ ≤ frameBits c →
    ∀ r, r < bp c → encS c b (σ * bp c + r + 1) = encF c b σ r := by
  intro σ
  induction σ with
  | zero =>
    intro _
    apply encS_phase
    have h1 : encS c b 1 = (rawtick false (envB b) 1 (fdState c)).1 := rfl
    have h2 : (0 : Nat) * bp c + 1 = 1 := by omega
    rw [h2, h1, encS_one]
  | succ σ ihσ =>
    intro hσ1
    apply encS_phase
    have hbp := bp_pos c
    have hprev := ihσ (by omega) (bp c - 1) (by omega)
    have hidx : (σ + 1) * bp c = σ * bp c + (bp c - 1) + 1 := by
      rw [Nat.succ_mul]; omega
    have hstep : encS c b ((σ + 1) * bp c + 1) =
        (rawtick false (encEnv b ((σ + 1) * bp c)) 1
          (encS c b ((σ + 1) * bp c))).1 := rfl
    have henv : encEnv b ((σ + 1) * bp c) = envQ := by
      unfold encEnv
      rw [if_neg (by
        have := Nat.mul_pos (Nat.succ_pos σ) hbp
        omega)]
    rw [hstep, henv, hidx, hprev, encS_step_shift c b σ (by omega)]

theorem encS_post_run (c : Cfg) (b : Nat) : ∀ t,
    (frameBits c + 1) * bp c + 1 ≤ t → encS c b t = encPost c b t := by
  have hbp := bp_pos c
  have hpos : 0 < (frameBits c + 1) * bp c :=
    Nat.mul_pos (Nat.succ_pos _) hbp
  refine Nat.le_induction ?_ ?_
  · -- base tick right after the final shift
    have hidx : (frameBits c + 1) * bp c = frameBits c * bp c + (bp c - 1) + 1
      := by rw [Nat.succ_mul]; omega
    have hprev := encS_formula c b (frameBits c) (le_refl _) (bp c - 1)
      (by omega)
    have hstep : encS c b ((frameBits c + 1) * bp c + 1) =
        (rawtick false (encEnv b ((frameBits c + 1) * bp c)) 1
          (encS c b ((frameBits c + 1) * bp c))).1 := rfl
    have henv : encEnv b ((frameBits c + 1) * bp c) = envQ := by
      unfold encEnv; rw [if_neg (by omega)]
    rw [← hidx] at hprev
    rw [hstep, henv, hprev, encS_step_last c b]
  · intro t ht ih
    have hstep : encS c b (t + 1) =
        (rawtick false (encEnv b t) 1 (encS c b t)).1 := rfl
    have henv : encEnv b t = envQ := by
      unfold encEnv; rw [if_neg (by omega)]
    rw [hstep, henv, ih, encS_quiet]

theorem encOut_zero (c : Cfg) (b : Nat) : encOut c b 0 = 0 := by
  unfold encOut
  have h1 : encEnv b 0 = envB b := rfl
  have h2 : encS c b 0 = fdState c := rfl
  rw [h1, h2, encS_one]

theorem encOut_mid (c : Cfg) (b σ r : Nat) (hσ : σ ≤ frameBits c)
    (hr : r + 1 < bp c) :
    encOut c b (σ * bp c + r + 1) = (txD c b >>> σ) &&& 1 := by
  unfold encOut
  have henv : encEnv b (σ * bp c + r + 1) = envQ := by
    unfold encEnv; rw [if_neg (by omega)]
  rw [henv, encS_formula c b σ hσ r (by omega), encS_step_mid c b σ r hr]

theorem encOut_shiftTick (c : Cfg) (b σ : Nat) (hσ : σ ≤ frameBits c) :
    encOut c b ((σ + 1) * bp c) = (txD c b >>> (σ + 1)) &&& 1 := by
  have hbp := bp_pos c
  have hidx : (σ + 1) * bp c = σ * bp c + (bp c - 1) + 1 := by
    rw [Nat.succ_mul]; omega
  unfold encOut
  have henv : encEnv b ((σ + 1) * bp c) = envQ := by
    unfold encEnv
    rw [if_neg (by
      have := Nat.mul_pos (Nat.succ_pos σ) hbp
      omega)]
  rcases Nat.lt_or_ge σ (frameBits c) with h | h
  · rw [henv, hidx, encS_formula c b σ (le_of_lt h) _ (by omega),
      encS_step_shift c b σ h]
  · have hg : σ = frameBits c := le_antisymm hσ h
    subst hg
    rw [henv, hidx, encS_formula c b (frameBits c) (le_refl _) (bp c - 1)
      (by omega), encS_step_last c b]

theorem encOut_post (c : Cfg) (b t : Nat)
    (ht : (frameBits c + 1) * bp c + 1 ≤ t) : encOut c b t = 1 := by
  unfold encOut
  have henv : encEnv b t = envQ := by
    unfold encEnv
    rw [if_neg (by
      have := Nat.mul_pos (Nat.succ_pos (frameBits c)) (bp_pos c)
      omega)]
  rw [henv, encS_post_run c b t ht, encS_quiet]

theorem encOut_sample (c : Cfg) (b i : Nat) (hi : i < frameBits c) :
    encOut c b (rxSampleTick c i) = (txD c b >>> (i + 1)) &&& 1 := by
  have hτ := rxSampleTick_eq c i
  have hbp := bp_pos c
  rcases Nat.eq_zero_or_pos (bp c / 2) with h | h
  · rw [hτ, h, Nat.add_zero]
    exact encOut_shiftTick c b i (by omega)
  · have hlt : bp c / 2 < bp c := Nat.div_lt_self hbp (by norm_num)
    have hidx : rxSampleTick c i = (i + 1) * bp c + (bp c / 2 - 1) + 1 := by
      rw [hτ]; omega
    rw [hidx]
    exact encOut_mid c b (i + 1) (bp c / 2 - 1) (by omega) (by omega)

/-! Decoder run: phase invariant. -/

theorem tickChange_eq (i : Nat) (s : UARTSIM) :
    tickChange i s =
      { s with
        m_rx_changectr :=
          (if i = 0 ∧ s.m_last_tx ≠ 0 then 0 else s.m_rx_changectr + 1),
        m_last_tx := i } := by
  unfold tickChange
  split <;> rfl

theorem rxSampleTick_lt (c : Cfg) {a b : Nat} (h : a < b) :
    rxSampleTick c a < rxSampleTick c b := by
  have hbp := bp_pos c
  have h1 := rxSampleTick_eq c a
  have h2 := rxSampleTick_eq c b
  have h3 : (a + 2) * bp c ≤ (b + 1) * bp c :=
    Nat.mul_le_mul_right _ (by omega)
  have h4 : (a + 2) * bp c = (a + 1) * bp c + bp c := by
    rw [Nat.succ_mul]
  omega

theorem dec_counter_pos (c : Cfg) (j t : Nat) (hlo : rxPhaseLo c j ≤ t)
    (ht : t < rxSampleTick c j) :
    (0 : Int) < (rxSampleTick c j : Int) - t
      - (if c.baud = 0 then 1 else 0) := by
  rcases Nat.eq_zero_or_pos c.baud with hb | hb
  · exfalso
    have hbp1 : bp c = 1 := by unfold bp; omega
    cases j with
    | zero =>
      have h0 : rxSampleTick c 0 = 1 := by rw [rxSampleTick_eq]; omega
      have hlo0 : 1 ≤ t := hlo
      omega
    | succ j0 =>
      have h1 : rxSampleTick c (j0 + 1) = rxSampleTick c j0 + 1 := by
        show rxSampleTick c j0 + bp c = _
        omega
      have hlo1 : rxSampleTick c j0 + 1 ≤ t := hlo
      omega
  · rw [if_neg (by omega)]
    omega

theorem decS_inv_one (c : Cfg) (f : Nat → Nat) (hf : f 0 = 0) :
    DecInv c f 0 1 (decS c f 1) := by
  have hbp := bp_pos c
  refine ⟨le_refl 1, ?_, 0, 0, ?_⟩
  · show 1 ≤ rxSampleTick c 0
    rw [rxSampleTick_eq]
    omega
  · have hstep : decS c f 1 = (rawtick false envQ (f 0) (fdState c)).1 := rfl
    rw [hstep, hf]
    rw [rawtick_fd, tickChange_edge _ (by simp [fdState])]
    rw [rxStep_enter _ _ rfl]
    rw [txStep_quiet _ _ _ (by simp [fdState]) (Or.inr (by simp [fdState]))
      (by simp [envQ])]
    simp only [decF, fdState, wAcc]
    simp only [UARTSIM.mk.injEq]
    norm_num
    rw [rxSampleTick_eq]
    unfold bp
    split <;> omega

theorem dec_step_dec (c : Cfg) (f : Nat → Nat) (j t ctr lst i : Nat)
    (hlo : rxPhaseLo c j ≤ t) (ht : t < rxSampleTick c j) :
    rawtick false envQ i (decF c f j t ctr lst) =
      (decF c f j (t + 1) (if i = 0 ∧ lst ≠ 0 then 0 else ctr + 1) i,
        1, none) := by
  have hcp := dec_counter_pos c j t hlo ht
  rw [rawtick_fd, tickChange_eq]
  rw [rxStep_dec _ i _ (by simp [decF, fdState])
    (by simpa [decF, fdState] using hcp)]
  rw [txStep_quiet _ _ _ (by simp [decF, fdState])
    (Or.inr (by simp [decF, fdState])) (by simp [envQ])]
  simp only [decF, fdState]
  norm_num
  omega

theorem dec_step_sample (c : Cfg) (f : Nat → Nat) (j ctr lst : Nat)
    (hj : j < frameBits c) (hj31 : j ≤ 31) :
    rawtick false envQ (f (rxSampleTick c j))
        (decF c f j (rxSampleTick c j) ctr lst) =
      (decF c f (j + 1) (rxSampleTick c j + 1)
          (if f (rxSampleTick c j) = 0 ∧ lst ≠ 0 then 0 else ctr + 1)
          (f (rxSampleTick c j)),
        1, none) := by
  rw [rawtick_fd, tickChange_eq]
  rw [rxStep_sample _ _ _ (by simp [decF, fdState])
    (by
      simp only [decF, fdState]
      split <;> omega)
    (by
      simp only [decF, fdState, rxFrameBits]
      have h1 : (2 : Nat) ^ j ≤ 2 ^ (c.nbits + c.nparity + c.nstop - 1) :=
        Nat.pow_le_pow_right (by norm_num) (by unfold frameBits at hj; omega)
      have h2 : (0 : Nat) < 2 ^ j := Nat.pos_pow_of_pos _ (by norm_num)
      omega)]
  rw [txStep_quiet _ _ _ (by simp [decF, fdState])
    (Or.inr (by simp [decF, fdState])) (by simp [envQ])]
  have hbusy := busy_or_one j
  have hdata := rx_data_combine (f (rxSampleTick c j) &&& 1) (wAcc c f j) j
    (wAcc_lt c f j) hj31
  have hw : wAcc c f j + (f (rxSampleTick c j) &&& 1) * 2 ^ j
      = wAcc c f (j + 1) := by
    rw [Nat.and_one_is_mod]
    rfl
  simp only [decF, fdState]
  rw [hbusy, hdata, hw]
  simp only [Prod.mk.injEq, UARTSIM.mk.injEq]
  norm_num
  rw [show rxSampleTick c (j + 1) = rxSampleTick c j + bp c from rfl]
  unfold bp
  split <;> omega

theorem dec_step_deliver (c : Cfg) (f : Nat → Nat) (ctr lst i : Nat)
    (hT1 : 1 ≤ frameBits c) :
    rawtick false envQ i
        (decF c f (frameBits c) (rxSampleTick c (frameBits c)) ctr lst) =
      ({ decF c f (frameBits c) (rxSampleTick c (frameBits c))
            (if i = 0 ∧ lst ≠ 0 then 0 else ctr + 1) i with
          m_rx_state := 0,
          m_rx_baudcounter := ((c.baud : Int) - 1) },
        1, some (wAcc c f (frameBits c) % 256)) := by
  rw [rawtick_fd, tickChange_eq]
  rw [rxStep_deliver _ _ _ (by simp [decF, fdState])
    (by
      simp only [decF, fdState]
      split <;> omega)
    (by
      simp only [decF, fdState, rxFrameBits]
      have h1 : (2 : Nat) ^ (c.nbits + c.nparity + c.nstop - 1)
          < 2 ^ (c.nbits + c.nparity + c.nstop) :=
        Nat.pow_lt_pow_right (by norm_num) (by unfold frameBits at hT1; omega)
      have h2 : (0 : Nat) < 2 ^ (c.nbits + c.nparity + c.nstop - 1) :=
        Nat.pos_pow_of_pos _ (by norm_num)
      unfold frameBits
      omega)
    (by simp [decF, fdState]) rfl]
  rw [txStep_quiet _ _ _ (by simp [decF, fdState])
    (Or.inr (by simp [decF, fdState])) (by simp [envQ])]
  have he : 32 - c.nbits - c.nstop - c.nparity = 32 - frameBits c := by
    unfold frameBits
    omega
  have hbyte : ((wAcc c f (frameBits c) <<< (32 - frameBits c))
      >>> (32 - c.nbits - c.nstop - c.nparity)) &&& 0xff
      = wAcc c f (frameBits c) % 256 := by
    rw [he, shiftLeft_shiftRight_self,
      show (0xff : Nat) = 2 ^ 8 - 1 from rfl,
      Nat.and_pow_two_sub_one_eq_mod]
  simp only [decF, fdState]
  rw [hbyte]

theorem decS_reach (c : Cfg) (f : Nat → Nat) (hT31 : frameBits c ≤ 31)
    (hf : f 0 = 0) : ∀ t, 1 ≤ t → t ≤ rxSampleTick c (frameBits c) →
    Reach c f t := by
  intro t
  refine Nat.le_induction ?_ ?_ t
  · intro _
    exact ⟨0, Nat.zero_le _, decS_inv_one c f hf⟩
  · intro t ht ih hle
    have hth : t ≤ rxSampleTick c (frameBits c) := by omega
    obtain ⟨j, hj, hlo, hhi, ctr, lst, hs⟩ := ih hth
    rcases Nat.lt_or_ge t (rxSampleTick c j) with hcase | hcase
    · refine ⟨j, hj, by omega, by omega,
        (if f t = 0 ∧ lst ≠ 0 then 0 else ctr + 1), f t, ?_⟩
      have hstep : decS c f (t + 1) =
          (rawtick false envQ (f t) (decS c f t)).1 := rfl
      rw [hstep, hs, dec_step_dec c f j t ctr lst (f t) hlo hcase]
    · have hte : t = rxSampleTick c j := le_antisymm hhi hcase
      have hjlt : j < frameBits c := by
        rcases Nat.lt_or_ge j (frameBits c) with h | h
        · exact h
        · exfalso
          have hjT : j = frameBits c := le_antisymm hj h
          subst hjT
          omega
      subst hte
      refine ⟨j + 1, by omega, le_refl _, ?_,
        (if f (rxSampleTick c j) = 0 ∧ lst ≠ 0 then 0 else ctr + 1),
        f (rxSampleTick c j), ?_⟩
      · have hstepτ : rxSampleTick c (j + 1) = rxSampleTick c j + bp c := rfl
        have := bp_pos c
        omega
      · have hstep : decS c f (rxSampleTick c j + 1) =
            (rawtick false envQ (f (rxSampleTick c j))
              (decS c f (rxSampleTick c j))).1 := rfl
        rw [hstep, hs, dec_step_sample c f j ctr lst hjlt (by omega)]

theorem decS_rx_state_during (c : Cfg) (f : Nat → Nat)
    (hT31 : frameBits c ≤ 31) (hf : f 0 = 0) :
    ∀ t, 1 ≤ t → t ≤ rxDone c → (decS c f t).m_rx_state = 1 := by
  intro t h1 h2
  obtain ⟨j, hj, hlo, hhi, ctr, lst, hs⟩ := decS_reach c f hT31 hf t h1 h2
  rw [hs]
  rfl

theorem decWr_none_early (c : Cfg) (f : Nat → Nat)
    (hT31 : frameBits c ≤ 31) (hf : f 0 = 0) :
    ∀ t, t < rxSampleTick c (frameBits c) → decWr c f t = none := by
  intro t ht
  rcases Nat.eq_zero_or_pos t with h0 | h0
  · subst h0
    show (rawtick false envQ (f 0) (fdState c)).2.2 = none
    rw [hf, rawtick_fd, tickChange_edge _ (by simp [fdState]),
      rxStep_enter _ _ rfl]
  · obtain ⟨j, hj, hlo, hhi, ctr, lst, hs⟩ :=
      decS_reach c f hT31 hf t h0 (by omega)
    show (rawtick false envQ (f t) (decS c f t)).2.2 = none
    rcases Nat.lt_or_ge t (rxSampleTick c j) with hcase | hcase
    · rw [hs, dec_step_dec c f j t ctr lst (f t) hlo hcase]
    · have hte : t = rxSampleTick c j := le_antisymm hhi hcase
      have hjlt : j < frameBits c := by
        rcases Nat.lt_or_ge j (frameBits c) with h | h
        · exact h
        · exfalso
          have hjT : j = frameBits c := le_antisymm hj h
          subst hjT
          omega
      subst hte
      rw [hs, dec_step_sample c f j ctr lst hjlt (by omega)]

theorem decWr_at_done (c : Cfg) (f : Nat → Nat)
    (hT31 : frameBits c ≤ 31) (hT1 : 1 ≤ frameBits c) (hf : f 0 = 0) :
    decWr c f (rxDone c) = some (wAcc c f (frameBits c) % 256) ∧
    DecIdle (decS c f (rxDone c + 1)) := by
  unfold rxDone
  have hmul : 0 < (frameBits c + 1) * bp c :=
    Nat.mul_pos (by omega) (bp_pos c)
  have h1 : 1 ≤ rxSampleTick c (frameBits c) := by
    rw [rxSampleTick_eq]
    omega
  obtain ⟨j, hj, hlo, hhi, ctr, lst, hs⟩ :=
    decS_reach c f hT31 hf (rxSampleTick c (frameBits c)) h1 (le_refl _)
  have hjT : j = frameBits c := by
    rcases Nat.lt_or_ge j (frameBits c) with h | h
    · exfalso
      have hlt := rxSampleTick_lt c h
      omega
    · omega
  subst hjT
  constructor
  · show (rawtick false envQ (f (rxSampleTick c (frameBits c)))
      (decS c f (rxSampleTick c (frameBits c)))).2.2 = _
    rw [hs, dec_step_deliver c f ctr lst _ hT1]
  · have hstep : decS c f (rxSampleTick c (frameBits c) + 1) =
        (rawtick false envQ (f (rxSampleTick c (frameBits c)))
          (decS c f (rxSampleTick c (frameBits c)))).1 := rfl
    rw [hstep, hs, dec_step_deliver c f ctr lst _ hT1]
    exact ⟨rfl, rfl, rfl⟩

theorem dec_idle_step (i : Nat) (hi : i ≠ 0) (s : UARTSIM) (h : DecIdle s) :
    DecIdle (rawtick false envQ i s).1 ∧
    (rawtick false envQ i s).2.2 = none := by
  obtain ⟨h1, h2, h3⟩ := h
  rw [rawtick_fd, tickChange_eq]
  rw [rxStep_idle_mark _ _ _ (by exact h1) hi]
  rw [txStep_quiet _ _ _ (by exact h2)
    (Or.inr (by exact le_of_eq h3.symm)) (by simp [envQ])]
  exact ⟨⟨h1, h2, h3⟩, rfl⟩

theorem decS_idle_run (c : Cfg) (f : Nat → Nat) (t0 : Nat)
    (hbase : DecIdle (decS c f t0)) (hfpos : ∀ u, t0 ≤ u → f u ≠ 0) :
    ∀ t, t0 ≤ t → DecIdle (decS c f t) ∧ decWr c f t = none := by
  intro t
  refine Nat.le_induction ?_ ?_ t
  · exact ⟨hbase, (dec_idle_step (f t0) (hfpos t0 (le_refl _)) _ hbase).2⟩
  · intro t ht ih
    have hD : DecIdle (decS c f (t + 1)) := by
      have hstep : decS c f (t + 1) =
          (rawtick false envQ (f t) (decS c f t)).1 := rfl
      rw [hstep]
      exact (dec_idle_step (f t) (hfpos t ht) _ ih.1).1
    exact ⟨hD, (dec_idle_step (f (t + 1)) (hfpos (t + 1) (by omega)) _ hD).2⟩

/-! Bridging the two instances: the decoder's samples of the encoder's
output are the frame word's bits. -/

theorem wAcc_encOut (c : Cfg) (b : Nat) : ∀ j, j ≤ frameBits c →
    wAcc c (encOut c b) j = (txD c b / 2) % 2 ^ j := by
  intro j
  induction j with
  | zero => intro _; simp [wAcc, Nat.mod_one]
  | succ j ih =>
    intro hj
    have h1 := ih (by omega)
    show wAcc c (encOut c b) j
        + (encOut c b (rxSampleTick c j) % 2) * 2 ^ j = _
    rw [h1, encOut_sample c b j (by omega)]
    have h2 : ((txD c b >>> (j + 1)) &&& 1) % 2
        = (txD c b >>> (j + 1)) &&& 1 := by
      rw [Nat.and_one_is_mod]
      omega
    rw [h2]
    have h3 := sample_bits_mod (txD c b) j
    rw [Nat.shiftRight_one] at h3
    exact h3

theorem mod_mod_min (x a b : Nat) : x % 2 ^ a % 2 ^ b = x % 2 ^ min a b := by
  rcases le_total a b with h | h
  · rw [min_eq_left h]
    exact Nat.mod_eq_of_lt (lt_of_lt_of_le (Nat.mod_lt x (Nat.pos_pow_of_pos _
      (by norm_num))) (Nat.pow_le_pow_right (by norm_num) h))
  · rw [min_eq_right h]
    exact Nat.mod_mod_of_dvd x (pow_dvd_pow 2 h)

theorem validCfg_T31 (c : Cfg) (hv : ValidCfg c) :
    frameBits c ≤ 31 ∧ 1 ≤ frameBits c := by
  obtain ⟨h1, h2, h3, h4, h5, h6, h7⟩ := hv
  unfold frameBits
  omega

theorem rtByte_eq_wAcc (c : Cfg) (b : Nat) :
    wAcc c (encOut c b) (frameBits c) % 256 = rtByte c b := by
  rw [wAcc_encOut c b (frameBits c) (le_refl _)]
  unfold rtByte
  rw [show (256 : Nat) = 2 ^ 8 from rfl]
  exact mod_mod_min _ _ _

set_option maxHeartbeats 4000000 in
set_option maxRecDepth 100000 in
theorem rtByte_byte8 : ∀ np < 2, ∀ fx < 2, ∀ ev < 2, ∀ b < 256,
    (txLoadData 8 np fx ev b / 2) % 256 = b := by decide

/-- Claim C1 (amended).  For every valid configuration and divisor and
every byte, composing the encoder with an identically configured decoder
replaying its bits one per tick delivers exactly one byte, at frame-end
tick `rxDone`; the delivered byte is the low `min (frameBits) 8` bits of
the frame following the start bit (`rtByte`), which equals the original
byte exactly when 8 data bits are configured.  (As stated, the claim holds
for data_bits = 8 only; with fewer data bits, parity and stop bits occupy
the delivered byte's upper positions.) -/
theorem c1_round_trip (c : Cfg) (hv : ValidCfg c) (b : Nat) (hb : b < 256) :
    (∀ t, roundTripWr c b t =
      if t = rxDone c then some (rtByte c b) else none) ∧
    (c.nbits = 8 → rtByte c b = b) := by
  obtain ⟨hT31, hT1⟩ := validCfg_T31 c hv
  constructor
  · intro t
    have hf0 : encOut c b 0 = 0 := encOut_zero c b
    have hmul : 0 < (frameBits c + 1) * bp c :=
      Nat.mul_pos (by omega) (bp_pos c)
    have htail : ∀ u, rxDone c + 1 ≤ u → encOut c b u ≠ 0 := by
      intro u hu
      have hd : rxDone c = (frameBits c + 1) * bp c + bp c / 2 := by
        unfold rxDone
        rw [rxSampleTick_eq]
      have hone : encOut c b u = 1 := encOut_post c b u (by omega)
      omega
    rcases Nat.lt_trichotomy t (rxDone c) with hlt | heq | hgt
    · rw [if_neg (by omega)]
      exact decWr_none_early c (encOut c b) hT31 hf0 t hlt
    · rw [if_pos heq, heq]
      have hdone := decWr_at_done c (encOut c b) hT31 hT1 hf0
      show decWr c (encOut c b) (rxDone c) = _
      rw [hdone.1, rtByte_eq_wAcc]
    · rw [if_neg (by omega)]
      have hdone := decWr_at_done c (encOut c b) hT31 hT1 hf0
      exact (decS_idle_run c (encOut c b) (rxDone c + 1) hdone.2
        (fun u hu => htail u hu) t (by omega)).2
  · intro h8
    obtain ⟨baud, nb, ns, np, fx, ev⟩ := c
    have h8n : nb = 8 := h8
    subst h8n
    obtain ⟨h1, h2, h3, h4, h5, h6, h7⟩ := hv
    have h3n : 1 ≤ ns := h3
    have h4n : ns ≤ 2 := h4
    have h5n : np ≤ 1 := h5
    have h6n : fx ≤ 1 := h6
    have h7n : ev ≤ 1 := h7
    have hmin : min (frameBits ⟨baud, 8, ns, np, fx, ev⟩) 8 = 8 := by
      show min (8 + np + ns) 8 = 8
      omega
    unfold rtByte
    rw [hmin]
    show (txLoadData 8 np fx ev b / 2) % 2 ^ 8 = b
    exact rtByte_byte8 np (by omega) fx (by omega) ev (by omega) b hb

/-- Claim C1, counterexample to the claim as stated: with 5 data bits,
no parity, one stop bit, divisor 1, feeding byte 0 round-trip delivers
byte 32 (the captured stop bit lands in bit 5), not byte 0.  The first 20
ticks show the single delivery. -/
theorem c1_counterexample :
    (List.range 20).map (roundTripWr cfgN5 0) =
      [none, none, none, none, none, none, none, some 32, none, none,
       none, none, none, none, none, none, none, none, none, none] ∧
    some (32 : Nat) ≠ some 0 := by
  constructor
  · rfl
  · decide

/-- Claim C1, witness: 8N1 at divisor 1 round-trips byte 65 ('A'),
delivered on tick 10. -/
theorem c1_witness :
    ValidCfg cfgB1 ∧ (65 : Nat) < 256 ∧ roundTripWr cfgB1 65 10 = some 65 := by
  refine ⟨by decide, by decide, ?_⟩
  have h := (c1_round_trip cfgB1 (by decide) 65 (by decide)).1 10
  have h8 := (c1_round_trip cfgB1 (by decide) 65 (by decide)).2 rfl
  rw [show rxDone cfgB1 = 10 from rfl] at h
  rw [if_pos rfl] at h
  rw [h, h8]

/-! Further preservation helpers for the single-tick claims. -/

theorem chk_preserves (env : Env) (s : UARTSIM) :
    (check_for_new_connections env s).m_rx_state = s.m_rx_state ∧
    (check_for_new_connections env s).m_tx_state = s.m_tx_state ∧
    (check_for_new_connections env s).m_tx_data = s.m_tx_data ∧
    (check_for_new_connections env s).m_tx_busy = s.m_tx_busy ∧
    (check_for_new_connections env s).m_tx_baudcounter = s.m_tx_baudcounter ∧
    (check_for_new_connections env s).m_skt = s.m_skt := by
  unfold check_for_new_connections
  split
  all_goals simp

theorem txStep_preserves_rx (net : Bool) (env : Env) (s : UARTSIM) :
    (txStep net env s).1.m_rx_state = s.m_rx_state ∧
    (txStep net env s).1.m_rx_busy = s.m_rx_busy ∧
    (txStep net env s).1.m_rx_data = s.m_rx_data ∧
    (txStep net env s).1.m_rx_baudcounter = s.m_rx_baudcounter ∧
    (txStep net env s).1.m_skt = s.m_skt := by
  simp only [txStep]
  repeat' split
  all_goals simp [apply_ite]

theorem txStep_run_fds (net : Bool) (env : Env) (s : UARTSIM)
    (h : ¬(s.m_tx_state = 0 ∧ (net = true ∨ 0 ≤ s.m_conrd))) :
    (txStep net env s).1.m_conrd = s.m_conrd ∧
    (txStep net env s).1.m_conwr = s.m_conwr := by
  simp only [txStep]
  rw [if_neg h]
  repeat' split
  all_goals simp [apply_ite]

theorem txStep_run_txstate (net : Bool) (env : Env) (s : UARTSIM)
    (h : ¬(s.m_tx_state = 0 ∧ (net = true ∨ 0 ≤ s.m_conrd)))
    (h0 : s.m_tx_state = 0) :
    (txStep net env s).1.m_tx_state = 0 := by
  simp only [txStep]
  rw [if_neg h]
  repeat' split
  all_goals simp_all

theorem txStep_run_out (net : Bool) (env : Env) (s : UARTSIM)
    (h : ¬(s.m_tx_state = 0 ∧ (net = true ∨ 0 ≤ s.m_conrd)))
    (hc : s.m_tx_baudcounter ≤ 0) :
    (txStep net env s).2 = (s.m_tx_data >>> 1) &&& 1 := by
  simp only [txStep]
  rw [if_neg h, if_pos hc]
  repeat' split
  all_goals simp

/-- Claim C7 (code bug): on the descriptor-pair instance built with port 0
(`m_conrd = STDIN_FILENO`, `m_conwr = STDOUT_FILENO`), `kill()` closes
exactly descriptor 0 — the process's standard input — because line 111
assigns `m_conwr = -1` where the guard tested `m_conrd == STDIN_FILENO`. -/
theorem c7_kill_closes_stdin :
    (kill (fdState cfgA)).1 = [0] ∧ (0 : Int) ∈ (kill (fdState cfgA)).1 := by
  constructor
  · rfl
  · decide

/-- Claim C4 (amended): on a tick where the TX encoder is Sending with
`baud_counter <= 0`, the shift register and busy mask are shifted right by
one and the output bit of that tick is the least-significant bit of the
register AFTER the shift — equivalently bit 1 of the register as it stood
at the start of the tick, not bit 0. -/
theorem c4_tx_shift_output (net : Bool) (env : Env) (i : Nat) (s : UARTSIM)
    (h1 : s.m_tx_state = 1) (h2 : s.m_tx_baudcounter ≤ 0) :
    (rawtick net env i s).2.1 = (s.m_tx_data >>> 1) &&& 1 ∧
    (rawtick net env i s).1.m_tx_data = s.m_tx_data >>> 1 ∧
    (rawtick net env i s).1.m_tx_busy = s.m_tx_busy >>> 1 := by
  have hraw : rawtick net env i s =
      ((txStep net env (rxStep env i (tickChange i
          (if net then check_for_new_connections env s else s))).1).1,
       (txStep net env (rxStep env i (tickChange i
          (if net then check_for_new_connections env s else s))).1).2,
       (rxStep env i (tickChange i
          (if net then check_for_new_connections env s else s))).2) := rfl
  set s0 := if net then check_for_new_connections env s else s with hs0
  have hc0 : s0.m_tx_state = s.m_tx_state ∧ s0.m_tx_data = s.m_tx_data ∧
      s0.m_tx_busy = s.m_tx_busy ∧ s0.m_tx_baudcounter = s.m_tx_baudcounter
      := by
    rw [hs0]
    cases net
    · simp
    · simp only [if_pos rfl]
      have h := chk_preserves env s
      exact ⟨h.2.1, h.2.2.1, h.2.2.2.1, h.2.2.2.2.1⟩
  set s1 := tickChange i s0 with hs1
  have hc1 := tickChange_fields i s0
  set s2 := (rxStep env i s1).1 with hs2
  have hc2 := rxStep_preserves_tx env i s1
  have htx : s2.m_tx_state = 1 := by
    rw [hc2.1, hc1.2.2.2.2.1, hc0.1, h1]
  have htd : s2.m_tx_data = s.m_tx_data := by
    rw [hc2.2.1, hc1.2.2.2.2.2.1, hc0.2.1]
  have htb : s2.m_tx_busy = s.m_tx_busy := by
    rw [hc2.2.2.1, hc1.2.2.2.2.2.2.1, hc0.2.2.1]
  have htc : s2.m_tx_baudcounter ≤ 0 := by
    rw [hc2.2.2.2.1, hc1.2.2.2.2.2.2.2.1, hc0.2.2.2]
    exact h2
  have hcond : ¬(s2.m_tx_state = 0 ∧ (net = true ∨ 0 ≤ s2.m_conrd)) := by
    rw [htx]
    simp
  rw [hraw]
  refine ⟨?_, ?_, ?_⟩
  · rw [txStep_run_out net env s2 hcond htc, htd]
  · have hout : (txStep net env s2).1.m_tx_data = s2.m_tx_data >>> 1 := by
      simp only [txStep]
      rw [if_neg hcond, if_pos htc]
      simp [apply_ite]
    rw [hout, htd]
  · have hout : (txStep net env s2).1.m_tx_busy = s2.m_tx_busy >>> 1 := by
      simp only [txStep]
      rw [if_neg hcond, if_pos htc]
      simp [apply_ite]
    rw [hout, htb]

/-- Claim C4, counterexample to the claim as stated: a Sending encoder
with expired baud counter and shift register 2 outputs 1 on that tick,
while the LSB of the register at the start of the tick (before the shift)
is 0. -/
theorem c4_counterexample :
    (rawtick false envQ 1 s4ctr).2.1 = 1 ∧ s4ctr.m_tx_data &&& 1 = 0 ∧
    s4ctr.m_tx_state = 1 ∧ s4ctr.m_tx_baudcounter = 0 := by
  refine ⟨rfl, by decide, rfl, rfl⟩

/-- Claim C4, witness: the amended statement applied to the same concrete
Sending state. -/
theorem c4_witness :
    (rawtick false envQ 1 s4ctr).2.1 = 1 ∧
    (rawtick false envQ 1 s4ctr).1.m_tx_data = 1 := by
  have h := c4_tx_shift_output false envQ 1 s4ctr rfl (by decide)
  refine ⟨?_, ?_⟩
  · rw [h.1]
    decide
  · rw [h.2.1]
    decide

/-- Claim C2 (amended): whenever the RX decoder completes a frame with an
open sink, the byte passed to the sink is the captured frame right-aligned
and masked to 8 bits (0xff) — that is, the low `min (frameBits, 8)` bits of
the sampled frame — not masked to `data_bits` width: for fewer than 8 data
bits the parity and stop samples occupy the positions at and above
`data_bits`. -/
theorem c2_deliver_mask (c : Cfg) (hv : ValidCfg c) (env : Env) (i : Nat)
    (s : UARTSIM) (w : Nat) (hw : w < 2 ^ frameBits c)
    (hrx : s.m_rx_state = 1) (hc : s.m_rx_baudcounter ≤ 0)
    (hbusy : s.m_rx_busy = 2 ^ frameBits c - 1)
    (hdata : s.m_rx_data = w <<< (32 - frameBits c))
    (hcw : 0 ≤ s.m_conwr) (hok : env.wrOk = true)
    (hnb : s.m_nbits = c.nbits) (hnsp : s.m_nstop = c.nstop)
    (hnp : s.m_nparity = c.nparity) :
    (rawtick false env i s).2.2 = some (w % 2 ^ min (frameBits c) 8) := by
  obtain ⟨hT31, hT1⟩ := validCfg_T31 c hv
  rw [rawtick_fd, tickChange_eq]
  rw [rxStep_deliver _ _ _
    (by show s.m_rx_state ≠ 0; omega)
    (by show s.m_rx_baudcounter ≤ 0; exact hc)
    (by
      show 2 ^ (rxFrameBits s - 1) ≤ s.m_rx_busy
      rw [hbusy]
      unfold rxFrameBits
      rw [hnb, hnp, hnsp]
      have h1 : (2 : Nat) ^ (c.nbits + c.nparity + c.nstop - 1)
          < 2 ^ (frameBits c) :=
        Nat.pow_lt_pow_right (by norm_num) (by unfold frameBits at hT1 ⊢; omega)
      omega)
    (by show 0 ≤ s.m_conwr; exact hcw)
    hok]
  show some ((s.m_rx_data >>> (32 - s.m_nbits - s.m_nstop - s.m_nparity))
    &&& 0xff) = _
  rw [hdata, hnb, hnsp, hnp]
  have he : 32 - c.nbits - c.nstop - c.nparity = 32 - frameBits c := by
    unfold frameBits
    omega
  rw [he, shiftLeft_shiftRight_self,
    show (0xff : Nat) = 2 ^ 8 - 1 from rfl, Nat.and_pow_two_sub_one_eq_mod]
  congr 1
  conv_lhs => rw [← Nat.mod_eq_of_lt hw]
  rw [mod_mod_min]

/-- Claim C2, counterexample to the claim as stated: completing a 5N1 frame
whose sampled stop bit is 1 delivers byte 32, which has a bit at position 5
and is therefore not the capture masked to 5 bits. -/
theorem c2_counterexample :
    (rawtick false envQ 1 s2ctr).2.2 = some 32 ∧ ¬(32 : Nat) < 2 ^ 5 := by
  refine ⟨rfl, by decide⟩

/-- Claim C2, witness: the amended statement at the same concrete 5N1
completion state. -/
theorem c2_witness : (rawtick false envQ 1 s2ctr).2.2 = some 32 := by
  have h := c2_deliver_mask cfgN5 (by decide) envQ 1 s2ctr 32 (by decide)
    rfl (by decide) (by decide) rfl (by decide) rfl rfl rfl rfl
  rw [h]
  decide

set_option maxHeartbeats 4000000 in
set_option maxRecDepth 100000 in
theorem c3_slot_key : ∀ nb < 9, 5 ≤ nb → ∀ fx < 2, ∀ ev < 2, ∀ b < 256,
    (txLoadData nb 1 fx ev b >>> (nb + 1)) &&& 1
      = specParitySlot nb fx ev b := by decide

/-- Claim C3 (amended): with parity enabled, the bit the encoder transmits
in the parity slot (bit period `nbits + 1` of the frame) is
`specParitySlot`: the configured parity value ORed with bit `nbits` of the
source byte, because the full byte is placed in the frame word before the
parity bit is ORed in at the same position; moreover the computed fold runs
over the whole byte ORed with the forced high mask, not over only the
transmitted `data_bits` bits.  In particular for `data_bits < 8` the
untransmitted high bits of the byte do influence the transmitted parity
bit. -/
theorem c3_parity_slot (c : Cfg) (hv : ValidCfg c) (hp : c.nparity = 1)
    (b : Nat) (hb : b < 256) :
    encOut c b ((c.nbits + 1) * bp c)
      = specParitySlot c.nbits c.fixdp c.evenp b := by
  have hσ : c.nbits + 1 ≤ frameBits c := by
    obtain ⟨h1, h2, h3, h4, h5, h6, h7⟩ := hv
    unfold frameBits
    omega
  have h1 := encOut_shiftTick c b c.nbits (by omega)
  rw [h1]
  obtain ⟨baud, nb, ns, np, fx, ev⟩ := c
  have hpn : np = 1 := hp
  subst hpn
  obtain ⟨g1, g2, g3, g4, g5, g6, g7⟩ := hv
  have g1n : 5 ≤ nb := g1
  have g2n : nb ≤ 8 := g2
  have g6n : fx ≤ 1 := g6
  have g7n : ev ≤ 1 := g7
  show (txLoadData nb 1 fx ev b >>> (nb + 1)) &&& 1 = specParitySlot nb fx ev b
  exact c3_slot_key nb (by omega) (by omega) fx (by omega) ev (by omega) b hb

/-- Claim C3, counterexample to the claim as stated: 7 data bits, fixed
parity of polarity 0, byte 0x80.  The claim requires the transmitted parity
bit to equal the polarity 0, but the encoder transmits 1 in the parity slot
(tick 8 with divisor 1), because byte bit 7 lands on the parity position. -/
theorem c3_counterexample :
    encOut ⟨1, 7, 1, 1, 1, 0⟩ 128 8 = 1 ∧ (1 : Nat) ≠ 0 := by
  refine ⟨rfl, by decide⟩

/-- Claim C3, witness: the amended statement at 8 data bits with computed
parity of polarity 1, byte 3. -/
theorem c3_witness :
    ValidCfg ⟨1, 8, 1, 1, 0, 1⟩ ∧
    encOut ⟨1, 8, 1, 1, 0, 1⟩ 3 9 = specParitySlot 8 0 1 3 := by
  refine ⟨by decide, ?_⟩
  have h := c3_parity_slot ⟨1, 8, 1, 1, 0, 1⟩ (by decide) rfl 3 (by decide)
  exact h

/-! Single-tick transport outcomes, shared by the error-policy claims. -/

theorem fd_eof_tick (env : Env) (s : UARTSIM) (htx : s.m_tx_state = 0)
    (hrd : 0 ≤ s.m_conrd) (hpo : env.pollIn = true) (hr0 : env.rdData = 0)
    (hrx : s.m_rx_state = 0) :
    (rawtick false env 1 s).1.m_conrd = s.m_conrd ∧
    (rawtick false env 1 s).1.m_conwr = s.m_conwr := by
  rw [rawtick_fd, tickChange_eq]
  rw [rxStep_idle_mark _ _ _ (by exact hrx) (by norm_num)]
  rw [txStep_rdeof_fd env _ (by exact htx) (by exact hrd) hpo hr0]
  exact ⟨rfl, rfl⟩

theorem fd_rderr_tick (env : Env) (s : UARTSIM) (htx : s.m_tx_state = 0)
    (hrd : 0 ≤ s.m_conrd) (hpo : env.pollIn = true) (hrn : env.rdData < 0)
    (hrx : s.m_rx_state = 0) :
    (rawtick false env 1 s).1.m_conrd = -1 ∧
    (rawtick false env 1 s).1.m_conwr = s.m_conwr := by
  rw [rawtick_fd, tickChange_eq]
  rw [rxStep_idle_mark _ _ _ (by exact hrx) (by norm_num)]
  rw [txStep_rderr_fd env _ (by exact htx) (by exact hrd) hpo hrn]
  exact ⟨rfl, rfl⟩

theorem net_eof_tick (env : Env) (s : UARTSIM) (htx : s.m_tx_state = 0)
    (hrd : 0 ≤ s.m_conrd) (hpo : env.pollIn = true) (hr0 : env.rdData = 0)
    (hrx : s.m_rx_state = 0) :
    (rawtick true env 1 s).1.m_conrd = -1 ∧
    (rawtick true env 1 s).1.m_conwr = -1 ∧
    (rawtick true env 1 s).1.m_skt = s.m_skt := by
  rw [rawtick_net, chk_noop env s (by rintro ⟨hx, _⟩; omega)]
  rw [tickChange_eq]
  rw [rxStep_idle_mark _ _ _ (by exact hrx) (by norm_num)]
  rw [txStep_rdeof_net env _ (by exact htx) (by exact hrd) hpo hr0]
  exact ⟨rfl, rfl, rfl⟩

theorem net_rderr_tick (env : Env) (s : UARTSIM) (htx : s.m_tx_state = 0)
    (hrd : 0 ≤ s.m_conrd) (hpo : env.pollIn = true) (hrn : env.rdData < 0)
    (hrx : s.m_rx_state = 0) :
    (rawtick true env 1 s).1.m_conrd = -1 ∧
    (rawtick true env 1 s).1.m_conwr = -1 ∧
    (rawtick true env 1 s).1.m_skt = s.m_skt := by
  rw [rawtick_net, chk_noop env s (by rintro ⟨hx, _⟩; omega)]
  rw [tickChange_eq]
  rw [rxStep_idle_mark _ _ _ (by exact hrx) (by norm_num)]
  rw [txStep_rderr_net env _ (by exact htx) (by exact hrd) hpo hrn]
  exact ⟨rfl, rfl, rfl⟩

theorem deliver_attempt_tick (env : Env) (i : Nat) (s : UARTSIM)
    (hrx : s.m_rx_state ≠ 0) (hc : s.m_rx_baudcounter ≤ 0)
    (hb : 2 ^ (rxFrameBits s - 1) ≤ s.m_rx_busy) (hcw : 0 ≤ s.m_conwr)
    (hok : env.wrOk = true) :
    (rawtick false env i s).2.2 =
      some ((s.m_rx_data >>> (32 - s.m_nbits - s.m_nstop - s.m_nparity))
        &&& 0xff) := by
  rw [rawtick_fd, tickChange_eq]
  rw [rxStep_deliver _ _ _ (by exact hrx) (by exact hc) (by exact hb)
    (by exact hcw) hok]

theorem txStep_fds_noread (net : Bool) (env : Env) (s : UARTSIM)
    (hrd : s.m_conrd < 0) :
    (txStep net env s).1.m_conrd = s.m_conrd ∧
    (txStep net env s).1.m_conwr = s.m_conwr := by
  rcases Nat.eq_zero_or_pos s.m_tx_state with h0 | h0
  · cases net
    · exact txStep_run_fds false env s (by
        rintro ⟨_, hor⟩
        rcases hor with hx | hx
        · exact absurd hx (by norm_num)
        · omega)
    · rw [txStep_quiet true env s h0 (Or.inl rfl) (by rintro ⟨hx, _⟩; omega)]
      exact ⟨rfl, rfl⟩
  · exact txStep_run_fds net env s (by rintro ⟨hx, _⟩; omega)

theorem fd_wrfail_tick (env : Env) (i : Nat) (s : UARTSIM)
    (hrx : s.m_rx_state ≠ 0) (hc : s.m_rx_baudcounter ≤ 0)
    (hb : 2 ^ (rxFrameBits s - 1) ≤ s.m_rx_busy) (hcw : 0 ≤ s.m_conwr)
    (hok : env.wrOk = false) :
    (rawtick false env i s).1.m_conrd = -1 ∧
    (rawtick false env i s).1.m_conwr = -1 := by
  rw [rawtick_fd, tickChange_eq]
  rw [rxStep_deliver_fail _ _ _ (by exact hrx) (by exact hc) (by exact hb)
    (by exact hcw) hok]
  exact ⟨(txStep_fds_noread false env _
      (by show (-1 : Int) < 0; norm_num)).1.trans rfl,
    (txStep_fds_noread false env _
      (by show (-1 : Int) < 0; norm_num)).2.trans rfl⟩

theorem net_wrfail_tick (env : Env) (i : Nat) (s : UARTSIM)
    (hrx : s.m_rx_state ≠ 0) (hc : s.m_rx_baudcounter ≤ 0)
    (hb : 2 ^ (rxFrameBits s - 1) ≤ s.m_rx_busy) (hcw : 0 ≤ s.m_conwr)
    (hok : env.wrOk = false) :
    (rawtick true env i s).1.m_conrd = -1 ∧
    (rawtick true env i s).1.m_conwr = -1 ∧
    (rawtick true env i s).1.m_skt = s.m_skt := by
  rw [rawtick_net, chk_noop env s (by rintro ⟨_, hx, _⟩; omega)]
  rw [tickChange_eq]
  rw [rxStep_deliver_fail _ _ _ (by exact hrx) (by exact hc) (by exact hb)
    (by exact hcw) hok]
  exact ⟨(txStep_fds_noread true env _
      (by show (-1 : Int) < 0; norm_num)).1.trans rfl,
    (txStep_fds_noread true env _
      (by show (-1 : Int) < 0; norm_num)).2.trans rfl,
    ((txStep_preserves_rx true env _).2.2.2.2).trans rfl⟩

theorem rxStep_keeps_neg_rd (env : Env) (i : Nat) (s : UARTSIM)
    (h1 : s.m_conrd < 0) : (rxStep env i s).1.m_conrd < 0 := by
  unfold rxStep
  repeat' split
  all_goals simp_all

theorem fd_terminal_tick (env : Env) (i : Nat) (s : UARTSIM)
    (h1 : s.m_conrd < 0) (h2 : s.m_conwr < 0) :
    (rawtick false env i s).1.m_conrd < 0 ∧
    (rawtick false env i s).1.m_conwr < 0 := by
  rw [rawtick_fd]
  have htc := tickChange_fields i s
  have hk := rxStep_keeps_neg_fds env i (tickChange i s)
    (by rw [htc.2.2.2.2.2.2.2.2.1]; exact h1)
    (by rw [htc.2.2.2.2.2.2.2.2.2.1]; exact h2)
  have hfds := txStep_fds_noread false env (rxStep env i (tickChange i s)).1
    (by omega)
  rw [hfds.1, hfds.2]
  exact hk

theorem net_accept_tick (env : Env) (s : UARTSIM)
    (h1 : s.m_conrd < 0) (h2 : s.m_conwr < 0) (h3 : 0 ≤ s.m_skt)
    (h4 : env.acceptReady = true) (hrx : s.m_rx_state = 0)
    (htx : s.m_tx_state = 0) (hpo : env.pollIn = false) :
    (rawtick true env 1 s).1.m_conrd = env.acceptFd ∧
    (rawtick true env 1 s).1.m_conwr = env.acceptFd := by
  rw [rawtick_net, chk_accept env s h1 h2 h3 h4]
  rw [tickChange_eq]
  rw [rxStep_idle_mark _ _ _ (by exact hrx) (by norm_num)]
  rw [txStep_quiet _ _ _ (by exact htx) (Or.inl rfl) (by simp [hpo])]
  exact ⟨rfl, rfl⟩

/-- Claim C5 (amended).  Per-mode error policy of the transport: in
descriptor-pair mode (i) an orderly peer close — a one-byte read returning
0 — does NOT invalidate the connection (it is silently ignored); (ii) a
hard read error invalidates only the read descriptor, leaving the sink
usable; (iii) a write failure invalidates both descriptors; in network
mode (iv) an orderly close, (v) a hard read error and (vi) a write failure
each invalidate both directions while the listening socket stays open, and
(vii) a new peer is accepted on a later tick, restoring both directions;
(viii) descriptor-pair mode, once both descriptors are invalid, remains
terminally disconnected on every subsequent tick. -/
theorem c5_error_policy :
    (∀ (env : Env) (s : UARTSIM), s.m_tx_state = 0 → 0 ≤ s.m_conrd →
      env.pollIn = true → env.rdData = 0 → s.m_rx_state = 0 →
      (rawtick false env 1 s).1.m_conrd = s.m_conrd ∧
      (rawtick false env 1 s).1.m_conwr = s.m_conwr) ∧
    (∀ (env : Env) (s : UARTSIM), s.m_tx_state = 0 → 0 ≤ s.m_conrd →
      env.pollIn = true → env.rdData < 0 → s.m_rx_state = 0 →
      (rawtick false env 1 s).1.m_conrd = -1 ∧
      (rawtick false env 1 s).1.m_conwr = s.m_conwr) ∧
    (∀ (env : Env) (i : Nat) (s : UARTSIM), s.m_rx_state ≠ 0 →
      s.m_rx_baudcounter ≤ 0 → 2 ^ (rxFrameBits s - 1) ≤ s.m_rx_busy →
      0 ≤ s.m_conwr → env.wrOk = false →
      (rawtick false env i s).1.m_conrd = -1 ∧
      (rawtick false env i s).1.m_conwr = -1) ∧
    (∀ (env : Env) (s : UARTSIM), s.m_tx_state = 0 → 0 ≤ s.m_conrd →
      env.pollIn = true → env.rdData = 0 → s.m_rx_state = 0 →
      (rawtick true env 1 s).1.m_conrd = -1 ∧
      (rawtick true env 1 s).1.m_conwr = -1 ∧
      (rawtick true env 1 s).1.m_skt = s.m_skt) ∧
    (∀ (env : Env) (s : UARTSIM), s.m_tx_state = 0 → 0 ≤ s.m_conrd →
      env.pollIn = true → env.rdData < 0 → s.m_rx_state = 0 →
      (rawtick true env 1 s).1.m_conrd = -1 ∧
      (rawtick true env 1 s).1.m_conwr = -1 ∧
      (rawtick true env 1 s).1.m_skt = s.m_skt) ∧
    (∀ (env : Env) (i : Nat) (s : UARTSIM), s.m_rx_state ≠ 0 →
      s.m_rx_baudcounter ≤ 0 → 2 ^ (rxFrameBits s - 1) ≤ s.m_rx_busy →
      0 ≤ s.m_conwr → env.wrOk = false →
      (rawtick true env i s).1.m_conrd = -1 ∧
      (rawtick true env i s).1.m_conwr = -1 ∧
      (rawtick true env i s).1.m_skt = s.m_skt) ∧
    (∀ (env : Env) (s : UARTSIM), s.m_conrd < 0 → s.m_conwr < 0 →
      0 ≤ s.m_skt → env.acceptReady = true → s.m_rx_state = 0 →
      s.m_tx_state = 0 → env.pollIn = false →
      (rawtick true env 1 s).1.m_conrd = env.acceptFd ∧
      (rawtick true env 1 s).1.m_conwr = env.acceptFd) ∧
    (∀ (env : Env) (i : Nat) (s : UARTSIM), s.m_conrd < 0 → s.m_conwr < 0 →
      (rawtick false env i s).1.m_conrd < 0 ∧
      (rawtick false env i s).1.m_conwr < 0) :=
  ⟨fd_eof_tick, fd_rderr_tick, fd_wrfail_tick, net_eof_tick, net_rderr_tick,
    net_wrfail_tick, net_accept_tick, fd_terminal_tick⟩

/-- Claim C5, counterexample to the claim as stated: in descriptor-pair
mode a one-byte read returning 0 (orderly peer close) leaves both
descriptors valid — it does not invalidate the connection. -/
theorem c5_counterexample :
    (rawtick false envRdEof 1 (fdState cfgA)).1.m_conrd = 0 ∧
    (rawtick false envRdEof 1 (fdState cfgA)).1.m_conwr = 1 := by
  exact ⟨rfl, rfl⟩

/-- Claim C5, witness: parts of the amended statement at concrete states:
a descriptor-pair read error keeps the sink descriptor, and a network
orderly close invalidates both while the listener remains. -/
theorem c5_witness :
    ((rawtick false envRdErr 1 (fdState cfgA)).1.m_conrd = -1 ∧
      (rawtick false envRdErr 1 (fdState cfgA)).1.m_conwr = 1) ∧
    ((rawtick true envRdEof 1 netSt).1.m_conrd = -1 ∧
      (rawtick true envRdEof 1 netSt).1.m_skt = 3) := by
  constructor
  · have h := c5_error_policy.2.1 envRdErr (fdState cfgA) rfl (by decide)
      rfl (by decide) rfl
    exact ⟨h.1, h.2.trans rfl⟩
  · have h := c5_error_policy.2.2.2.1 envRdEof netSt rfl (by decide) rfl
      rfl rfl
    exact ⟨h.1, h.2.2.trans rfl⟩

/-- Claim C9.  In descriptor-pair mode a hard read error invalidates only
the read descriptor (the sink stays usable, so frames completed afterwards
are still passed to the sink write), while a write failure there, and a
read error or write failure in network mode, invalidate both directions at
once. -/
theorem c9_read_error_isolation :
    (∀ (env : Env) (s : UARTSIM), s.m_tx_state = 0 → 0 ≤ s.m_conrd →
      env.pollIn = true → env.rdData < 0 → s.m_rx_state = 0 →
      (rawtick false env 1 s).1.m_conrd = -1 ∧
      (rawtick false env 1 s).1.m_conwr = s.m_conwr) ∧
    (∀ (env : Env) (i : Nat) (s : UARTSIM), s.m_rx_state ≠ 0 →
      s.m_rx_baudcounter ≤ 0 → 2 ^ (rxFrameBits s - 1) ≤ s.m_rx_busy →
      0 ≤ s.m_conwr → env.wrOk = true →
      (rawtick false env i s).2.2 =
        some ((s.m_rx_data >>> (32 - s.m_nbits - s.m_nstop - s.m_nparity))
          &&& 0xff)) ∧
    (∀ (env : Env) (i : Nat) (s : UARTSIM), s.m_rx_state ≠ 0 →
      s.m_rx_baudcounter ≤ 0 → 2 ^ (rxFrameBits s - 1) ≤ s.m_rx_busy →
      0 ≤ s.m_conwr → env.wrOk = false →
      (rawtick false env i s).1.m_conrd = -1 ∧
      (rawtick false env i s).1.m_conwr = -1) ∧
    (∀ (env : Env) (s : UARTSIM), s.m_tx_state = 0 → 0 ≤ s.m_conrd →
      env.pollIn = true → env.rdData < 0 → s.m_rx_state = 0 →
      (rawtick true env 1 s).1.m_conrd = -1 ∧
      (rawtick true env 1 s).1.m_conwr = -1) ∧
    (∀ (env : Env) (i : Nat) (s : UARTSIM), s.m_rx_state ≠ 0 →
      s.m_rx_baudcounter ≤ 0 → 2 ^ (rxFrameBits s - 1) ≤ s.m_rx_busy →
      0 ≤ s.m_conwr → env.wrOk = false →
      (rawtick true env i s).1.m_conrd = -1 ∧
      (rawtick true env i s).1.m_conwr = -1) :=
  ⟨fd_rderr_tick, deliver_attempt_tick, fd_wrfail_tick,
    fun env s a b c d e =>
      ⟨(net_rderr_tick env s a b c d e).1, (net_rderr_tick env s a b c d e).2.1⟩,
    fun env i s a b c d e =>
      ⟨(net_wrfail_tick env i s a b c d e).1,
        (net_wrfail_tick env i s a b c d e).2.1⟩⟩

/-- Claim C9, witness: the read error on a fresh descriptor-pair instance
keeps the sink descriptor 1, and a decoder completing a frame with the
read side already invalid still passes byte 32 to the sink. -/
theorem c9_witness :
    ((rawtick false envRdErr 1 (fdState cfgA)).1.m_conrd = -1 ∧
      (rawtick false envRdErr 1 (fdState cfgA)).1.m_conwr = 1) ∧
    (rawtick false envQ 1 { s2ctr with m_conrd := -1 }).2.2 = some 32 := by
  constructor
  · have h := c9_read_error_isolation.1 envRdErr (fdState cfgA) rfl
      (by decide) rfl (by decide) rfl
    exact ⟨h.1, h.2.trans rfl⟩
  · have h := c9_read_error_isolation.2.1 envQ 1 { s2ctr with m_conrd := -1 }
      (by decide) (by decide) (by decide) (by decide) rfl
    exact h.trans (by decide)

/-- Claim C6 (amended).  After the connection has been downgraded: in
network mode the encoder stays Idle while unconnected and the tick output
is 1 (mark) on every tick; in descriptor-pair mode the encoder indeed
never re-enters Sending, but the Idle source probe is skipped outright
(the probe guard requires network mode or a valid read descriptor), so the
tick falls into the shift branch and outputs successive bits of the
residual transmit shift register — once that register has drained to 0 the
output is 0, not mark. -/
theorem c6_after_error :
    (∀ (env : Env) (i : Nat) (s : UARTSIM), s.m_tx_state = 0 →
      s.m_conrd < 0 → s.m_conwr < 0 → env.acceptReady = false →
      (rawtick true env i s).2.1 = 1 ∧
      (rawtick true env i s).1.m_tx_state = 0) ∧
    (∀ (env : Env) (i : Nat) (s : UARTSIM), s.m_tx_state = 0 →
      s.m_conrd < 0 →
      (rawtick false env i s).1.m_tx_state = 0 ∧
      (rawtick false env i s).1.m_conrd < 0) ∧
    (∀ (env : Env) (i : Nat) (s : UARTSIM), s.m_tx_state = 0 →
      s.m_conrd < 0 → s.m_tx_baudcounter ≤ 0 →
      (rawtick false env i s).2.1 = (s.m_tx_data >>> 1) &&& 1) := by
  refine ⟨fun env i s htx hrd hwr hacc => ?_,
    fun env i s htx hrd => ?_, fun env i s htx hrd hctr => ?_⟩
  · rw [rawtick_net]
    rw [chk_noop env s (by
      rintro ⟨h1x, h2x, h3x, h4x⟩
      rw [hacc] at h4x
      exact absurd h4x (by decide))]
    have htc := tickChange_fields i s
    have hX0 : (rxStep env i (tickChange i s)).1.m_tx_state = 0 := by
      rw [(rxStep_preserves_tx env i (tickChange i s)).1,
        htc.2.2.2.2.1]
      exact htx
    have hXrd : (rxStep env i (tickChange i s)).1.m_conrd < 0 := by
      apply rxStep_keeps_neg_rd
      rw [htc.2.2.2.2.2.2.2.2.1]
      exact hrd
    have hq := txStep_quiet true env (rxStep env i (tickChange i s)).1 hX0
      (Or.inl rfl) (by rintro ⟨hc, _⟩; omega)
    rw [hq]
    exact ⟨rfl, hX0⟩
  · rw [rawtick_fd]
    have htc := tickChange_fields i s
    have hX0 : (rxStep env i (tickChange i s)).1.m_tx_state = 0 := by
      rw [(rxStep_preserves_tx env i (tickChange i s)).1,
        htc.2.2.2.2.1]
      exact htx
    have hXrd : (rxStep env i (tickChange i s)).1.m_conrd < 0 := by
      apply rxStep_keeps_neg_rd
      rw [htc.2.2.2.2.2.2.2.2.1]
      exact hrd
    have hcond : ¬((rxStep env i (tickChange i s)).1.m_tx_state = 0 ∧
        (false = true ∨ 0 ≤ (rxStep env i (tickChange i s)).1.m_conrd)) := by
      rintro ⟨_, hor⟩
      rcases hor with h | h
      · exact absurd h (by decide)
      · omega
    refine ⟨?_, ?_⟩
    · exact txStep_run_txstate false env _ hcond hX0
    · rw [(txStep_run_fds false env _ hcond).1]
      exact hXrd
  · rw [rawtick_fd]
    have htc := tickChange_fields i s
    have hX0 : (rxStep env i (tickChange i s)).1.m_tx_state = 0 := by
      rw [(rxStep_preserves_tx env i (tickChange i s)).1,
        htc.2.2.2.2.1]
      exact htx
    have hXrd : (rxStep env i (tickChange i s)).1.m_conrd < 0 := by
      apply rxStep_keeps_neg_rd
      rw [htc.2.2.2.2.2.2.2.2.1]
      exact hrd
    have hcond : ¬((rxStep env i (tickChange i s)).1.m_tx_state = 0 ∧
        (false = true ∨ 0 ≤ (rxStep env i (tickChange i s)).1.m_conrd)) := by
      rintro ⟨_, hor⟩
      rcases hor with h | h
      · exact absurd h (by decide)
      · omega
    have hXc : (rxStep env i (tickChange i s)).1.m_tx_baudcounter ≤ 0 := by
      rw [(rxStep_preserves_tx env i (tickChange i s)).2.2.2.1,
        htc.2.2.2.2.2.2.2.1]
      exact hctr
    rw [txStep_run_out false env _ hcond hXc,
      (rxStep_preserves_tx env i (tickChange i s)).2.1,
      htc.2.2.2.2.2.1]

set_option maxRecDepth 100000 in
/-- Claim C6, counterexample to the claim as stated: in the
descriptor-pair scenario (divisor 1, 8N1, one byte sent, read error on the
idle probe at tick 11) the read descriptor is invalid from tick 12 on, yet
the output at tick 40 is 0, not mark level 1. -/
theorem c6_counterexample :
    (c6S 12).m_conrd = -1 ∧ (c6S 12).m_tx_state = 0 ∧ c6Out 40 = 0 := by
  exact ⟨by decide, by decide, by decide⟩

/-- Claim C6, witness: the network part at a concrete unconnected state,
and the descriptor-pair parts at a concrete drained invalid state. -/
theorem c6_witness :
    (rawtick true envQ 1
      { fdState cfgA with m_conrd := -1, m_conwr := -1, m_skt := 3 }).2.1
      = 1 ∧
    (rawtick false envQ 1 { fdState cfgA with m_conrd := -1 }).1.m_tx_state
      = 0 ∧
    (rawtick false envQ 1 { fdState cfgA with m_conrd := -1 }).2.1 = 0 := by
  refine ⟨?_, ?_, ?_⟩
  · exact (c6_after_error.1 envQ 1
      { fdState cfgA with m_conrd := -1, m_conwr := -1, m_skt := 3 }
      rfl (by decide) (by decide) rfl).1
  · exact (c6_after_error.2.1 envQ 1
      { fdState cfgA with m_conrd := -1 } rfl (by decide)).1
  · exact (c6_after_error.2.2 envQ 1
      { fdState cfgA with m_conrd := -1 } rfl (by decide)
      (by decide)).trans (by decide)

/-- Claim C8.  Scenario A: divisor 25, 8N1, byte 0x41 accepted on tick 0:
for the first ten 25-tick bit periods the output is the pattern start=0,
then 1,0,0,0,0,0,1,0 (0x41 LSB first), then stop=1, one period each; from
tick 250 on the output is 1 forever. -/
theorem c8_scenarioA :
    (∀ t, t < 250 → encOut cfgA 65 t = c8pat.getD (t / 25) 1) ∧
    (∀ t, 250 ≤ t → encOut cfgA 65 t = 1) := by
  have hbits : ∀ k, k ≤ 9 →
      (txD cfgA 65 >>> k) &&& 1 = c8pat.getD k 1 := by decide
  constructor
  · intro t ht
    rcases Nat.eq_zero_or_pos t with h0 | h0
    · subst h0
      rw [encOut_zero]
      rfl
    · obtain ⟨σ, r, ht_eq, hr25, hσ9⟩ :
          ∃ p q, t = p * 25 + q + 1 ∧ q < 25 ∧ p ≤ 9 :=
        ⟨(t - 1) / 25, (t - 1) % 25, by omega, by omega, by omega⟩
      rcases Nat.lt_or_ge r 24 with hr | hr
      · have hmain : encOut cfgA 65 t = (txD cfgA 65 >>> σ) &&& 1 := by
          rw [show t = σ * bp cfgA + r + 1 from by
            have hbp : bp cfgA = 25 := rfl
            rw [hbp]
            omega]
          exact encOut_mid cfgA 65 σ r
            (by
              have h9 : frameBits cfgA = 9 := rfl
              omega)
            (by
              have hbp : bp cfgA = 25 := rfl
              omega)
        rw [hmain, show t / 25 = σ from by omega]
        exact hbits σ hσ9
      · have hσ8 : σ + 1 ≤ 9 := by omega
        have hmain : encOut cfgA 65 t =
            (txD cfgA 65 >>> (σ + 1)) &&& 1 := by
          rw [show t = (σ + 1) * bp cfgA from by
            have hbp : bp cfgA = 25 := rfl
            rw [hbp]
            omega]
          exact encOut_shiftTick cfgA 65 σ
            (by
              have h9 : frameBits cfgA = 9 := rfl
              omega)
        rw [hmain, show t / 25 = σ + 1 from by omega]
        exact hbits (σ + 1) hσ8
  · intro t ht
    rcases Nat.eq_or_lt_of_le ht with h | h
    · rw [← h]
      have hmain : encOut cfgA 65 250 =
          (txD cfgA 65 >>> 10) &&& 1 := by
        rw [show (250 : Nat) = (9 + 1) * bp cfgA from by
          have hbp : bp cfgA = 25 := rfl
          rw [hbp]]
        exact encOut_shiftTick cfgA 65 9
          (by
            have h9 : frameBits cfgA = 9 := rfl
            omega)
      rw [hmain]
      decide
    · exact encOut_post cfgA 65 t (by
        have h251 : (frameBits cfgA + 1) * bp cfgA + 1 = 251 := rfl
        omega)

/-- Claim C8, witness: concrete ticks — a data-0 period bit and the
settled mark level. -/
theorem c8_witness :
    encOut cfgA 65 60 = 0 ∧ encOut cfgA 65 260 = 1 := by
  constructor
  · exact (c8_scenarioA.1 60 (by norm_num)).trans (by decide)
  · exact c8_scenarioA.2 260 (by norm_num)

/-- Claim C10.  Decoder commitment: (a) in both modes, on any tick where
the receive state is Idle and the input bit is 0 — even a one-tick glitch
— the decoder enters Receiving; (b) for every valid configuration and
EVERY input stream whose tick-0 bit is 0, the decoder stays in Receiving
on every tick through the final sample tick `rxDone`, is back in Idle on
the next tick, attempts exactly one delivery at `rxDone` — the low 8 bits
of whatever was sampled, with no start-bit revalidation and no abort path
— and delivers nothing before that. -/
theorem c10_commitment :
    (∀ (net : Bool) (env : Env) (s : UARTSIM), s.m_rx_state = 0 →
      (rawtick net env 0 s).1.m_rx_state = 1) ∧
    (∀ (c : Cfg) (f : Nat → Nat), ValidCfg c → f 0 = 0 →
      (∀ t, 1 ≤ t → t ≤ rxDone c → (decS c f t).m_rx_state = 1) ∧
      ((decS c f (rxDone c + 1)).m_rx_state = 0 ∧
        decWr c f (rxDone c) = some (wAcc c f (frameBits c) % 256)) ∧
      (∀ t, t < rxDone c → decWr c f t = none)) := by
  constructor
  · intro net env s h0
    cases net
    · rw [rawtick_fd]
      have htc := tickChange_fields 0 s
      rw [rxStep_enter env _ (by rw [htc.1]; exact h0)]
      rw [(txStep_preserves_rx false env _).1]
    · rw [rawtick_net]
      have hchk := (chk_preserves env s).1
      have htc := tickChange_fields 0 (check_for_new_connections env s)
      rw [rxStep_enter env _ (by rw [htc.1, hchk]; exact h0)]
      rw [(txStep_preserves_rx true env _).1]
  · intro c f hv hf0
    have hT := validCfg_T31 c hv
    refine ⟨decS_rx_state_during c f hT.1 hf0,
      ⟨(decWr_at_done c f hT.1 hT.2 hf0).2.1,
        (decWr_at_done c f hT.1 hT.2 hf0).1⟩,
      fun t ht => decWr_none_early c f hT.1 hf0 t ht⟩

/-- Claim C10, witness: the glitch entry at a fresh instance, and the
commitment run on the all-zero input stream with a 5N1 configuration. -/
theorem c10_witness :
    (rawtick false envQ 0 (fdState cfgA)).1.m_rx_state = 1 ∧
    decWr cfgN5 (fun _ => 0) (rxDone cfgN5) = some 0 ∧
    decWr cfgN5 (fun _ => 0) 3 = none := by
  refine ⟨c10_commitment.1 false envQ (fdState cfgA) rfl, ?_, ?_⟩
  · exact ((c10_commitment.2 cfgN5 (fun _ => 0) (by decide) rfl).2.1.2).trans
      (by decide)
  · exact (c10_commitment.2 cfgN5 (fun _ => 0) (by decide) rfl).2.2 3
      (by decide)

end Wbuart
